import Mathlib

/-!
Verification of the flight-schedule parser (`flight_parser.py`).

This file gives a shallow embedding of the validation pipeline and the query
engine of the `FlightParser` class, and proves or refutes the specified
properties of the record validator, the field validators, the CSV ingestion
row handling, the JSON database loader and the query engine.

Modelling conventions:
  * Python strings are Lean `String`s (lists of characters); whitespace sets
    and case mapping are modelled over ASCII (the inputs of interest are
    ASCII; Unicode-only whitespace is outside the model).
  * Python `float` values are modelled by `PyFloat`: an exact rational, a
    signed infinity, or a NaN.  Binary floating point representation error is
    outside the model; the comparison and rounding logic is preserved
    (IEEE comparisons with NaN are false, `round` is round-half-to-even).
  * `datetime.strptime(s, "%Y-%m-%d %H:%M")` is embedded by a parser that
    follows CPython's `_strptime` compiled regular expression
    `\d\d\d\d-(1[0-2]|0[1-9]|[1-9])-(3[01]|[12]\d|0[1-9]|[1-9])\s+`
    `(2[0-3]|[0-1]\d|\d):([0-5]\d|\d)` with Python's leftmost-first
    alternation semantics, followed by `strptime`'s "unconverted data
    remains" length check and the `datetime` constructor's range checks.
  * Fallible Python code (exceptions) is modelled with `Option`.
-/

/-- ASCII whitespace as recognised by Python's `str.strip` / regex `\s`
(space, tab, newline, carriage return, vertical tab, form feed). -/
def pyIsSpace (c : Char) : Bool :=
  decide (c = ' ' ∨ c = '\t' ∨ c = '\n' ∨ c = '\r' ∨ c = '\x0b' ∨ c = '\x0c')

/-- Character class test `lo ≤ c ≤ hi`, used for regex character ranges. -/
def inRange (lo hi c : Char) : Bool := decide (lo ≤ c ∧ c ≤ hi)

/-- ASCII digit test (regex `\d` over the inputs in scope). -/
def isDig (c : Char) : Bool := inRange '0' '9' c

/-- Numeric value of an ASCII digit character. -/
def dv (c : Char) : Nat := c.toNat - 48

/-- ASCII lower-casing of one character (model of `str.lower`). -/
def asciiLower (c : Char) : Char :=
  if inRange 'A' 'Z' c then Char.ofNat (c.toNat + 32) else c

/-- Model of Python `str.lower()` (ASCII part). -/
def pyLower (s : String) : String := ⟨s.data.map asciiLower⟩

/-- Model of Python `str.strip()` with no argument: remove leading and
trailing whitespace. -/
def pyStrip (s : String) : String :=
  ⟨((s.data.dropWhile pyIsSpace).reverse.dropWhile pyIsSpace).reverse⟩

/-- A parsed `datetime` value with minute precision, as produced by
`datetime.strptime(s, "%Y-%m-%d %H:%M")`. -/
structure DT where
  y : Nat
  mo : Nat
  d : Nat
  h : Nat
  mi : Nat
deriving DecidableEq, Repr

/-- Lexicographic order on datetimes: Python's `datetime.__lt__`. -/
def dtLt (a b : DT) : Bool :=
  decide (a.y < b.y ∨ (a.y = b.y ∧ (a.mo < b.mo ∨ (a.mo = b.mo ∧
    (a.d < b.d ∨ (a.d = b.d ∧ (a.h < b.h ∨ (a.h = b.h ∧ a.mi < b.mi))))))))

/-- Gregorian leap year rule, as used by Python's `datetime`. -/
def isLeapYear (y : Nat) : Bool :=
  y % 4 = 0 && (y % 100 ≠ 0 || y % 400 = 0)

/-- Number of days in a month, as used by Python's `datetime`. -/
def daysInMonth (y mo : Nat) : Nat :=
  if mo = 2 then (if isLeapYear y then 29 else 28)
  else if mo = 4 ∨ mo = 6 ∨ mo = 9 ∨ mo = 11 then 30
  else 31

/-- Range checks performed by the `datetime` constructor (year 1..9999,
month 1..12, calendar-valid day, hour 0..23, minute 0..59). -/
def datetimeCtorOk (t : DT) : Bool :=
  decide (1 ≤ t.y ∧ t.y ≤ 9999 ∧ 1 ≤ t.mo ∧ t.mo ≤ 12 ∧ 1 ≤ t.d ∧
    t.d ≤ daysInMonth t.y t.mo ∧ t.h ≤ 23 ∧ t.mi ≤ 59)

/-! Candidate matches of the component regular expressions, in Python's
leftmost-first alternation order.  Each candidate is a (value, rest) pair;
`List.findSome?` over the candidate list, with the continuation parsing the
rest of the pattern, is exactly the backtracking behaviour of the regex. -/

/-- Candidates of the month regex `1[0-2]|0[1-9]|[1-9]`. -/
def monthCands (cs : List Char) : List (Nat × List Char) :=
  (match cs with
   | c1 :: c2 :: r =>
     if inRange '1' '1' c1 && inRange '0' '2' c2 then [(10 + dv c2, r)] else []
   | _ => []) ++
  (match cs with
   | c1 :: c2 :: r =>
     if inRange '0' '0' c1 && inRange '1' '9' c2 then [(dv c2, r)] else []
   | _ => []) ++
  (match cs with
   | c1 :: r => if inRange '1' '9' c1 then [(dv c1, r)] else []
   | _ => [])

/-- Candidates of the day regex `3[01]|[12]\d|0[1-9]|[1-9]`. -/
def dayCands (cs : List Char) : List (Nat × List Char) :=
  (match cs with
   | c1 :: c2 :: r =>
     if inRange '3' '3' c1 && inRange '0' '1' c2 then [(30 + dv c2, r)] else []
   | _ => []) ++
  (match cs with
   | c1 :: c2 :: r =>
     if inRange '1' '2' c1 && isDig c2 then [(10 * dv c1 + dv c2, r)] else []
   | _ => []) ++
  (match cs with
   | c1 :: c2 :: r =>
     if inRange '0' '0' c1 && inRange '1' '9' c2 then [(dv c2, r)] else []
   | _ => []) ++
  (match cs with
   | c1 :: r => if inRange '1' '9' c1 then [(dv c1, r)] else []
   | _ => [])

/-- Candidates of the hour regex `2[0-3]|[0-1]\d|\d`. -/
def hourCands (cs : List Char) : List (Nat × List Char) :=
  (match cs with
   | c1 :: c2 :: r =>
     if inRange '2' '2' c1 && inRange '0' '3' c2 then [(20 + dv c2, r)] else []
   | _ => []) ++
  (match cs with
   | c1 :: c2 :: r =>
     if inRange '0' '1' c1 && isDig c2 then [(10 * dv c1 + dv c2, r)] else []
   | _ => []) ++
  (match cs with
   | c1 :: r => if isDig c1 then [(dv c1, r)] else []
   | _ => [])

/-- Candidates of the minute regex `[0-5]\d|\d`. -/
def minuteCands (cs : List Char) : List (Nat × List Char) :=
  (match cs with
   | c1 :: c2 :: r =>
     if inRange '0' '5' c1 && isDig c2 then [(10 * dv c1 + dv c2, r)] else []
   | _ => []) ++
  (match cs with
   | c1 :: r => if isDig c1 then [(dv c1, r)] else []
   | _ => [])

/-- Continuation after the minute component: the regex pattern ends here,
returning the matched datetime and the unconsumed remainder. -/
def minuteCont (y mo d h mi : Nat) (rest : List Char) : Option (DT × List Char) :=
  some (⟨y, mo, d, h, mi⟩, rest)

/-- Continuation after the hour component: the literal `:` then the minute. -/
def hourCont (y mo d h : Nat) (rest : List Char) : Option (DT × List Char) :=
  match rest with
  | c :: r => if c = ':' then
      List.findSome? (fun p => minuteCont y mo d h p.1 p.2) (minuteCands r)
    else none
  | [] => none

/-- Continuation after the day component: `\s+` (one or more whitespace
characters, matched greedily; the following token is a digit, so shorter
whitespace runs can never extend to a match) then the hour. -/
def wsCont (y mo d : Nat) (rest : List Char) : Option (DT × List Char) :=
  if (rest.takeWhile pyIsSpace).isEmpty then none
  else
    List.findSome? (fun p => hourCont y mo d p.1 p.2)
      (hourCands (rest.dropWhile pyIsSpace))

/-- Continuation after the month component: the literal `-` then the day. -/
def monthCont (y mo : Nat) (rest : List Char) : Option (DT × List Char) :=
  match rest with
  | c :: r => if c = '-' then
      List.findSome? (fun p => wsCont y mo p.1 p.2) (dayCands r)
    else none
  | [] => none

/-- The full pattern match of `_strptime`'s compiled regex for the format
`%Y-%m-%d %H:%M`: four digits, a literal `-`, then the month/day/hour/minute
components with backtracking.  Returns the first (leftmost-first) match and
the unconsumed remainder, or `none` when the regex does not match. -/
def matchYmdHM (cs : List Char) : Option (DT × List Char) :=
  match cs with
  | y1 :: y2 :: y3 :: y4 :: c5 :: r1 =>
    if isDig y1 && isDig y2 && isDig y3 && isDig y4 && decide (c5 = '-') then
      List.findSome?
        (fun p =>
          monthCont (1000 * dv y1 + 100 * dv y2 + 10 * dv y3 + dv y4) p.1 p.2)
        (monthCands r1)
    else none
  | _ => none

/-- The checks `strptime` performs after the regex has matched: no
unconverted data may remain and the `datetime` constructor must accept the
values.  (These checks do not backtrack into the regex search.) -/
def postCheck (o : Option (DT × List Char)) : Bool :=
  match o with
  | some (t, rest) => rest.isEmpty && datetimeCtorOk t
  | none => false

/-- Model of `datetime.strptime(s, "%Y-%m-%d %H:%M")`: regex match, then the
"unconverted data remains" check (the whole string must have been consumed),
then the `datetime` constructor's range checks.  `none` models `ValueError`. -/
def strptimeYmdHM (s : String) : Option DT :=
  match matchYmdHM s.data with
  | some (t, rest) => if rest.isEmpty && datetimeCtorOk t then some t else none
  | none => none

/-- Embedding of `FlightParser.validate_datetime`. -/
def validate_datetime (s : String) : Bool := (strptimeYmdHM s).isSome

/-- Embedding of `FlightParser.validate_times`: both strings must parse and
the arrival must be strictly later than the departure. -/
def validate_times (departure_str arrival_str : String) : Bool :=
  match strptimeYmdHM departure_str, strptimeYmdHM arrival_str with
  | some dep, some arr => dtLt dep arr
  | _, _ => false

/-! Specification-side datetime predicates. -/

/-- Committed reading of a run of at most two ASCII digits: the numeral's
value together with the rest of the input; `none` when the input does not
start with a digit or starts with three or more digits. -/
def readNum2 (cs : List Char) : Option (Nat × List Char) :=
  match cs with
  | c1 :: c2 :: c3 :: rest =>
    if isDig c1 then
      if isDig c2 then
        if isDig c3 then none
        else some (10 * dv c1 + dv c2, c3 :: rest)
      else some (dv c1, c2 :: c3 :: rest)
    else none
  | [c1, c2] =>
    if isDig c1 then
      if isDig c2 then some (10 * dv c1 + dv c2, [])
      else some (dv c1, [c2])
    else none
  | [c1] => if isDig c1 then some (dv c1, []) else none
  | [] => none

/-- Specification side, last step of the flexible pattern: a one- or
two-digit minute in 0–59 ending the string, with the year at least 0001 and
the day valid for the month and year. -/
def specFromMinute (y mo d _h : Nat) (r4 : List Char) : Bool :=
  match readNum2 r4 with
  | some (mi, r5) =>
    r5.isEmpty && decide (1 ≤ y ∧ mi ≤ 59 ∧ d ≤ daysInMonth y mo)
  | none => false

/-- Specification side, after the hour: the literal `:` then the minute. -/
def specAfterHour (y mo d h : Nat) (r3 : List Char) : Bool :=
  match r3 with
  | c4 :: r4 => if c4 = ':' then specFromMinute y mo d h r4 else false
  | [] => false

/-- Specification side: a one- or two-digit hour in 0–23. -/
def specFromHour (y mo d : Nat) (cs : List Char) : Bool :=
  match readNum2 cs with
  | some (h, r3) => if h ≤ 23 then specAfterHour y mo d h r3 else false
  | none => false

/-- Specification side: one or more whitespace characters then the hour. -/
def specFromWs (y mo d : Nat) (rr : List Char) : Bool :=
  if (rr.takeWhile pyIsSpace).isEmpty then false
  else specFromHour y mo d (rr.dropWhile pyIsSpace)

/-- Specification side: a one- or two-digit day in 1–31 (calendar validity
is checked at the end) then the whitespace separator. -/
def specFromDay (y mo : Nat) (r2 : List Char) : Bool :=
  match readNum2 r2 with
  | some (d, rr) => if 1 ≤ d ∧ d ≤ 31 then specFromWs y mo d rr else false
  | none => false

/-- Specification side, after the month: the literal `-` then the day. -/
def specAfterMonth (y mo : Nat) (r : List Char) : Bool :=
  match r with
  | c :: r2 => if c = '-' then specFromDay y mo r2 else false
  | [] => false

/-- Specification side: a one- or two-digit month in 1–12. -/
def specFromMonth (y : Nat) (r1 : List Char) : Bool :=
  match readNum2 r1 with
  | some (mo, r) => if 1 ≤ mo ∧ mo ≤ 12 then specAfterMonth y mo r else false
  | none => false

/-- Specification-side flexible datetime pattern, written the way the
(amended) specification reads: a 4-digit year, `-`, a one- or two-digit
month in 1–12, `-`, a one- or two-digit day, one or more whitespace
characters, a one- or two-digit hour in 0–23, `:`, a one- or two-digit
minute in 0–59, nothing further, with the year at least 0001 and the day
valid for the month and year. -/
def specFlexCore (cs : List Char) : Bool :=
  match cs with
  | y1 :: y2 :: y3 :: y4 :: c5 :: r1 =>
    if isDig y1 && isDig y2 && isDig y3 && isDig y4 && decide (c5 = '-') then
      specFromMonth (1000 * dv y1 + 100 * dv y2 + 10 * dv y3 + dv y4) r1
    else false
  | _ => false

/-- The flexible datetime pattern on strings. -/
def specDateTimeFlex (s : String) : Bool := specFlexCore s.data

/-- Specification-side exact datetime pattern, literally as the original
specification reads: exactly `YYYY-MM-DD HH:MM` with a 4-digit year, 2-digit
zero-padded month 01–12, 2-digit day valid for that month and year, 2-digit
hour 00–23 and 2-digit minute 00–59, with no extra or missing characters. -/
def specDateTimeExact (s : String) : Bool :=
  match s.data with
  | [y1, y2, y3, y4, s1, m1, m2, s2, d1, d2, s3, h1, h2, s4, n1, n2] =>
    isDig y1 && isDig y2 && isDig y3 && isDig y4 &&
    decide (s1 = '-') && isDig m1 && isDig m2 && decide (s2 = '-') &&
    isDig d1 && isDig d2 && decide (s3 = ' ') &&
    isDig h1 && isDig h2 && decide (s4 = ':') && isDig n1 && isDig n2 &&
    (let y := 1000 * dv y1 + 100 * dv y2 + 10 * dv y3 + dv y4
     let mo := 10 * dv m1 + dv m2
     let d := 10 * dv d1 + dv d2
     let h := 10 * dv h1 + dv h2
     let mi := 10 * dv n1 + dv n2
     decide (1 ≤ y ∧ 1 ≤ mo ∧ mo ≤ 12 ∧ 1 ≤ d ∧ d ≤ daysInMonth y mo ∧
       h ≤ 23 ∧ mi ≤ 59))
  | _ => false

/-! Python float values and the `float(str)` constructor. -/

/-- A Python float: an exact rational (binary representation error is outside
the model), a signed infinity (`inf true` is `+inf`), or a NaN. -/
inductive PyFloat where
  | fin : ℚ → PyFloat
  | inf : Bool → PyFloat
  | nan : PyFloat
deriving DecidableEq, Repr

/-- Negation of a Python float (the leading `-` sign of a literal). -/
def pyFloatNeg : PyFloat → PyFloat
  | .fin q => .fin (-q)
  | .inf b => .inf (!b)
  | .nan => .nan

/-- IEEE `>` comparison: any comparison involving NaN is false. -/
def PyFloat.gt : PyFloat → PyFloat → Bool
  | .nan, _ => false
  | _, .nan => false
  | .fin x, .fin y => decide (y < x)
  | .fin _, .inf b => !b
  | .inf b, .fin _ => b
  | .inf a, .inf b => a && !b

/-- IEEE `<=` comparison: any comparison involving NaN is false. -/
def PyFloat.le : PyFloat → PyFloat → Bool
  | .nan, _ => false
  | _, .nan => false
  | .fin x, .fin y => decide (x ≤ y)
  | .fin _, .inf b => b
  | .inf b, .fin _ => !b
  | .inf a, .inf b => !a || b

/-- Reads a run of digits with PEP 515 underscores (an underscore must stand
between two digits); returns the accumulated value, the digit count so far
and the rest.  `v` and `n` accumulate the value and count of digits already
read. -/
def digitsUAux : Nat → Nat → List Char → Nat × Nat × List Char
  | v, n, [] => (v, n, [])
  | v, n, [c] => if isDig c then (10 * v + dv c, n + 1, []) else (v, n, [c])
  | v, n, c :: d :: r =>
    if isDig c then digitsUAux (10 * v + dv c) (n + 1) (d :: r)
    else if c = '_' ∧ isDig d then digitsUAux (10 * v + dv d) (n + 1) r
    else (v, n, c :: d :: r)

/-- Reads a nonempty digit run (with PEP 515 underscores); `none` when the
input does not start with a digit. -/
def digitsU (cs : List Char) : Option (Nat × Nat × List Char) :=
  match cs with
  | c :: r => if isDig c then some (digitsUAux (dv c) 1 r) else none
  | [] => none

/-- Value of a decimal literal `mant / 10^fc * 10^(±ev)`, assembled with
integer arithmetic only. -/
def pyDecValue (mant : Int) (fc : Nat) (eneg : Bool) (ev : Nat) : PyFloat :=
  if eneg then .fin (mkRat mant ((10 : Nat) ^ fc * (10 : Nat) ^ ev))
  else .fin (mkRat (mant * (10 : Int) ^ ev) ((10 : Nat) ^ fc))

/-- Parses the exponent part of a float literal (after the `e`/`E`):
an optional sign and a digit run which must end the string. -/
def parseExpPart (mant : Int) (fc : Nat) (cs : List Char) : Option PyFloat :=
  let sr : Bool × List Char :=
    match cs with
    | c :: r =>
      if c = '+' then (false, r)
      else if c = '-' then (true, r)
      else (false, c :: r)
    | [] => (false, [])
  match digitsU sr.2 with
  | some (ev, _, []) => some (pyDecValue mant fc sr.1 ev)
  | _ => none

/-- Parses an unsigned decimal float literal: `digits [. digits] [exp]`,
`digits . [exp]`, or `. digits [exp]`; anything else is rejected. -/
def parseDecimal (cs : List Char) : Option PyFloat :=
  let p1 := match digitsU cs with
            | some t => t
            | none => (0, 0, cs)
  let iv := p1.1
  let ic := p1.2.1
  let r1 := p1.2.2
  let p2 := match r1 with
            | c :: r =>
              if c = '.' then
                match digitsU r with
                | some t => t
                | none => (0, 0, r)
              else (0, 0, c :: r)
            | [] => (0, 0, [])
  let fv := p2.1
  let fc := p2.2.1
  let r2 := p2.2.2
  if ic + fc = 0 then none
  else
    let mant : Int := (iv : Int) * (10 : Int) ^ fc + (fv : Int)
    match r2 with
    | [] => some (.fin (mkRat mant ((10 : Nat) ^ fc)))
    | c :: r3 => if c = 'e' ∨ c = 'E' then parseExpPart mant fc r3 else none

/-- Parses an unsigned float literal: the special spellings `inf`,
`infinity` and `nan` (case-insensitive) or a decimal literal. -/
def parseUnsigned (cs : List Char) : Option PyFloat :=
  let low := cs.map asciiLower
  if low = "inf".data ∨ low = "infinity".data then some (.inf true)
  else if low = "nan".data then some .nan
  else parseDecimal cs

/-- Model of Python's `float(str)`: strip surrounding whitespace, an optional
sign, then an unsigned float literal consuming the whole rest.  `none`
models `ValueError`.  (Exponent overflow to infinity and non-ASCII digits
are outside the model.) -/
def pyFloat (s : String) : Option PyFloat :=
  let cs := ((s.data.dropWhile pyIsSpace).reverse.dropWhile pyIsSpace).reverse
  match cs with
  | c :: r =>
    if c = '+' then parseUnsigned r
    else if c = '-' then (parseUnsigned r).map pyFloatNeg
    else parseUnsigned (c :: r)
  | [] => none

/-- Round-half-to-even of `100 * q` to an integer, computed from the reduced
numerator and denominator (Python's `round` uses banker's rounding). -/
def roundHalfEven2 (q : ℚ) : Int :=
  let n : Int := q.num * 100
  let d : Int := (q.den : Int)
  let f := Int.fdiv n d
  let r := n - f * d
  if 2 * r < d then f
  else if d < 2 * r then f + 1
  else if f % 2 = 0 then f
  else f + 1

/-- Model of Python's `round(x, 2)`: round-half-to-even to two decimal
places; infinities and NaN are fixed points. -/
def roundTo2 : PyFloat → PyFloat
  | .fin q => .fin (mkRat (roundHalfEven2 q) 100)
  | .inf b => .inf b
  | .nan => .nan

/-- Embedding of `FlightParser.validate_price`: `float(price_str) > 0`,
false when the conversion raises. -/
def validate_price (price_str : String) : Bool :=
  match pyFloat price_str with
  | some v => PyFloat.gt v (.fin 0)
  | none => false

/-! Anchored character-class regexes.  Python's `re.match(r'^[...]{lo,hi}$', s)`
matches iff some prefix of `lo` to `hi` class characters is followed by a
position where `$` matches, and `$` matches at the end of the string or just
before a newline that ends the string. -/

/-- Where the regex anchor `$` matches: the end of the string, or just before
a final newline. -/
def dollarAt (cs : List Char) : Bool := decide (cs = [] ∨ cs = ['\n'])

/-- Match of `^p{lo,hi}$` against the whole input: some count `k` between
`lo` and `hi` of leading class characters reaches a `$` position (the
existential formulation is equivalent to the backtracking search). -/
def regexFullDollar (p : Char → Bool) (lo hi : Nat) (cs : List Char) : Bool :=
  (List.range (hi + 1)).any fun k =>
    decide (lo ≤ k) && decide (k ≤ cs.length) && (cs.take k).all p &&
      dollarAt (cs.drop k)

/-- ASCII letters and digits, the class `[A-Za-z0-9]`. -/
def isAsciiAlnum (c : Char) : Bool :=
  inRange 'A' 'Z' c || inRange 'a' 'z' c || inRange '0' '9' c

/-- Uppercase ASCII letters, the class `[A-Z]`. -/
def isUpperAlpha (c : Char) : Bool := inRange 'A' 'Z' c

/-- Embedding of `FlightParser.validate_flight_id`:
`re.match(r'^[A-Za-z0-9]{2,8}$', flight_id)`. -/
def validate_flight_id (flight_id : String) : Bool :=
  regexFullDollar isAsciiAlnum 2 8 flight_id.data

/-- Embedding of `FlightParser.validate_airport_code`:
`re.match(r'^[A-Z]{3}$', code)`. -/
def validate_airport_code (code : String) : Bool :=
  regexFullDollar isUpperAlpha 3 3 code.data

/-- Specification-side exact flight-id pattern, literally as the
specification reads: the whole string consists of 2 to 8 characters, each an
ASCII letter or digit. -/
def specFlightIdExact (s : String) : Bool :=
  decide (2 ≤ s.data.length ∧ s.data.length ≤ 8) && s.data.all isAsciiAlnum

/-! The Flight entity and the record validator. -/

/-- A validated flight record, the dictionary built by
`parse_flight_record` on success. -/
structure Flight where
  flight_id : String
  origin : String
  destination : String
  departure_datetime : String
  arrival_datetime : String
  price : PyFloat
deriving DecidableEq, Repr

/-- The flight-id block of `parse_flight_record`'s validation (messages
appended for the `flight_id` field). -/
def flightIdErrors (flight_id : String) : List String :=
  if flight_id = "" then ["missing flight_id"]
  else if !validate_flight_id flight_id then
    (if flight_id.length < 2 then
       ["flight_id too short (less than 2 characters)"]
     else if 8 < flight_id.length then
       ["flight_id too long (more than 8 characters)"]
     else ["flight_id must be alphanumeric"])
  else []

/-- The origin block of `parse_flight_record`'s validation. -/
def originErrors (origin : String) : List String :=
  if origin = "" then ["missing origin"]
  else if !validate_airport_code origin then ["invalid origin code"]
  else []

/-- The destination block of `parse_flight_record`'s validation. -/
def destinationErrors (destination : String) : List String :=
  if destination = "" then ["missing destination"]
  else if !validate_airport_code destination then ["invalid destination code"]
  else []

/-- The departure-datetime block of `parse_flight_record`'s validation. -/
def departureErrors (departure_dt : String) : List String :=
  if departure_dt = "" then ["missing departure_datetime"]
  else if !validate_datetime departure_dt then ["invalid departure datetime"]
  else []

/-- The arrival-datetime block of `parse_flight_record`'s validation,
including the ordering check guarded by both datetimes being valid. -/
def arrivalErrors (departure_dt arrival_dt : String) : List String :=
  if arrival_dt = "" then ["missing arrival_datetime"]
  else if !validate_datetime arrival_dt then ["invalid arrival datetime"]
  else if validate_datetime departure_dt && validate_datetime arrival_dt &&
          !validate_times departure_dt arrival_dt then
    ["arrival before departure"]
  else []

/-- The price block of `parse_flight_record`'s validation. -/
def priceErrors (price : String) : List String :=
  if price = "" then ["missing price"]
  else if !validate_price price then
    (match pyFloat price with
     | some price_val =>
       if PyFloat.le price_val (.fin 0) then ["price must be positive"]
       else ["invalid price format"]
     | none => ["invalid price format"])
  else []

/-- The `errors` list accumulated by `parse_flight_record` over the six
already-stripped fields: the field-level checks in source order, each
appending its messages. -/
def recordErrors (flight_id origin destination departure_dt arrival_dt
    price : String) : List String :=
  flightIdErrors flight_id ++ originErrors origin ++
  destinationErrors destination ++ departureErrors departure_dt ++
  arrivalErrors departure_dt arrival_dt ++ priceErrors price

/-- Embedding of `FlightParser.parse_flight_record`.  The Python function
also receives `line_number` and `filename` but never uses them, so they are
omitted.  The arity check (`len(record) != 6`) is the fall-through branch of
the six-element pattern.  In the success branch `float(price)` cannot raise
because `validate_price` succeeded, so the `getD` default is unreachable. -/
def parse_flight_record (record : List String) : Bool × Option Flight × List String :=
  match record with
  | [f0, o0, t0, dep0, arr0, p0] =>
    let flight_id := pyStrip f0
    let origin := pyStrip o0
    let destination := pyStrip t0
    let departure_dt := pyStrip dep0
    let arrival_dt := pyStrip arr0
    let price := pyStrip p0
    let errors :=
      recordErrors flight_id origin destination departure_dt arrival_dt price
    if errors.isEmpty then
      (true,
       some { flight_id := flight_id, origin := origin,
              destination := destination, departure_datetime := departure_dt,
              arrival_datetime := arrival_dt,
              price := roundTo2 ((pyFloat price).getD PyFloat.nan) },
       [])
    else (false, none, errors)
  | r =>
    if r.length < 6 then (false, none, ["missing required fields"])
    else (false, none, ["extra fields"])

/-! CSV ingestion. -/

/-- One entry of `FlightParser.errors`: the diagnostic of a rejected or
comment row. -/
structure Diagnostic where
  file : String
  line_number : Nat
  raw_line : String
  error : String
deriving DecidableEq, Repr

/-- The mutable state of a `FlightParser` instance: `self.valid_flights`
and `self.errors`. -/
structure ParserState where
  valid_flights : List Flight
  errors : List Diagnostic
deriving DecidableEq, Repr

/-- The state built by `FlightParser.__init__`: both collections empty. -/
def initState : ParserState := ⟨[], []⟩

/-- Model of Python's `s.startswith('#')`: the first character is `#`. -/
def startsWithHash (s : String) : Bool :=
  match s.data with
  | c :: _ => decide (c = '#')
  | [] => false

/-- The per-row body of the loop in `FlightParser.parse_csv_file`: skip
empty rows, record comment rows as diagnostics, skip a header row at line 1,
otherwise run the record validator and append the flight or the joined
diagnostic.  An `is_valid` result always carries a flight, so the middle
fall-through branch is unreachable. -/
def processCsvRow (st : ParserState) (file_path : String) (line_number : Nat)
    (row : List String) : ParserState :=
  if row.isEmpty then st
  else if startsWithHash (pyStrip (row.headD "")) then
    { st with errors := st.errors ++
        [⟨file_path, line_number, String.intercalate "," row,
          "comment line, ignored for data parsing"⟩] }
  else if line_number = 1 ∧ 6 ≤ row.length ∧
      pyLower (row.headD "") = "flight_id" ∧ pyLower (row.getD 1 "") = "origin" then
    st
  else
    match parse_flight_record row with
    | (true, some flight_data, _) =>
      { st with valid_flights := st.valid_flights ++ [flight_data] }
    | (true, none, _) => st
    | (false, _, errs) =>
      { st with errors := st.errors ++
          [⟨file_path, line_number, String.intercalate "," row,
            String.intercalate "; " errs⟩] }

/-- The row loop of `parse_csv_file`, threading the 1-based line number. -/
def csvLoop (st : ParserState) (file_path : String) (line_number : Nat) :
    List (List String) → ParserState
  | [] => st
  | row :: rest =>
    csvLoop (processCsvRow st file_path line_number row) file_path
      (line_number + 1) rest

/-- Embedding of `FlightParser.parse_csv_file` on the sequence of rows
produced by `csv.reader` (the file I/O itself is an external collaborator). -/
def parse_csv_file (st : ParserState) (file_path : String)
    (rows : List (List String)) : ParserState :=
  csvLoop st file_path 1 rows

/-! The JSON database loader. -/

/-- A JSON scalar as it can appear in a flight object's `price` field:
a string or a number. -/
inductive JValue where
  | jstr : String → JValue
  | jnum : PyFloat → JValue
deriving DecidableEq, Repr

/-- One element of the loaded JSON array: the six named fields, each
possibly missing.  The five text fields are modelled as strings (the
loader's `str(...)` is the identity on them); the price field may be a
string or a number. -/
structure StructuredRecord where
  flight_id : Option String
  origin : Option String
  destination : Option String
  departure_datetime : Option String
  arrival_datetime : Option String
  price : Option JValue
deriving DecidableEq, Repr

/-- The per-element body of the loop in `FlightParser.load_json_database`:
require the six fields, re-validate with the field validators, require
`float(price) > 0`, and rebuild the flight with the price rounded to two
decimals.  `none` models any raised-and-caught exception (the element is
skipped with a warning). -/
def validateStructured (flight : StructuredRecord) : Option Flight :=
  match flight.flight_id, flight.origin, flight.destination,
      flight.departure_datetime, flight.arrival_datetime, flight.price with
  | some fid, some org, some dst, some dep, some arr, some pv =>
    if validate_flight_id fid then
      if validate_airport_code org then
        if validate_airport_code dst then
          if validate_datetime dep then
            if validate_datetime arr then
              if validate_times dep arr then
                match (match pv with | .jstr s => pyFloat s | .jnum x => some x) with
                | some price =>
                  if PyFloat.le price (.fin 0) then none
                  else some ⟨fid, org, dst, dep, arr, roundTo2 price⟩
                | none => none
              else none
            else none
          else none
        else none
      else none
    else none
  | _, _, _, _, _, _ => none

/-- The accumulation loop of `load_json_database` over the document's
elements, appending each re-validated flight to `validated_flights`. -/
def loadLoop (acc : List Flight) : List StructuredRecord → List Flight
  | [] => acc
  | rec0 :: rest =>
    match validateStructured rec0 with
    | some f => loadLoop (acc ++ [f]) rest
    | none => loadLoop acc rest

/-- Embedding of `FlightParser.load_json_database` on an already-decoded
top-level array (a non-array document is a fatal error before any element
is processed and is outside this function).  The result of the loop is
assigned to `self.valid_flights`, replacing its previous value; `self.errors`
is not touched. -/
def load_json_database (st : ParserState) (data : List StructuredRecord) :
    ParserState :=
  { st with valid_flights := loadLoop [] data }

/-- The flight dictionary as re-read from an exported JSON database:
the five text fields and the numeric price. -/
def flightToStructured (f : Flight) : StructuredRecord :=
  { flight_id := some f.flight_id, origin := some f.origin,
    destination := some f.destination,
    departure_datetime := some f.departure_datetime,
    arrival_datetime := some f.arrival_datetime,
    price := some (JValue.jnum f.price) }

/-! The query engine. -/

/-- One field predicate of `execute_query`'s inner loop: `some b` says the
flight is still a match (`b = true`) or the loop breaks with no match
(`b = false`); `none` models an uncaught `strptime` exception (fatal).
A field name that is none of the six recognized names leaves the match
flag untouched. -/
def queryFieldTest (flight : Flight) (field value : String) : Option Bool :=
  if field = "flight_id" then some (decide (flight.flight_id = value))
  else if field = "origin" then some (decide (flight.origin = value))
  else if field = "destination" then some (decide (flight.destination = value))
  else if field = "departure_datetime" then
    match strptimeYmdHM flight.departure_datetime, strptimeYmdHM value with
    | some flight_dt, some query_dt => some (!dtLt flight_dt query_dt)
    | _, _ => none
  else if field = "arrival_datetime" then
    match strptimeYmdHM flight.arrival_datetime, strptimeYmdHM value with
    | some flight_dt, some query_dt => some (!dtLt query_dt flight_dt)
    | _, _ => none
  else if field = "price" then
    match pyFloat value with
    | some query_price => some (!PyFloat.gt flight.price query_price)
    | none => some false
  else some true

/-- The inner loop of `execute_query` over the query's (field, value)
pairs: a failed predicate breaks with `false`; an exception aborts. -/
def flightMatches (flight : Flight) : List (String × String) → Option Bool
  | [] => some true
  | (field, value) :: rest =>
    match queryFieldTest flight field value with
    | none => none
    | some false => some false
    | some true => flightMatches flight rest

/-- Embedding of `FlightParser.execute_query`: collect, in database order,
the flights matching every predicate of the query; `none` models a fatal
`strptime` exception. -/
def execute_query (valid_flights : List Flight)
    (query : List (String × String)) : Option (List Flight) :=
  match valid_flights with
  | [] => some []
  | flight :: rest =>
    match flightMatches flight query with
    | none => none
    | some true => (execute_query rest query).map (flight :: ·)
    | some false => execute_query rest query

/-! Specification-side definitions for the record validator and the query
engine. -/

/-- The six recognized query field names. -/
def recognizedFields : List String :=
  ["flight_id", "origin", "destination", "departure_datetime",
   "arrival_datetime", "price"]

/-- Specification-side single-field match predicate, written as §4.5 of the
specification reads: exact equality on the three text fields, departs
on/after for `departure_datetime`, arrives on/before for `arrival_datetime`,
at most the (parsed) price for `price`, and any other field name has no
effect. -/
def specFieldOk (flight : Flight) (field value : String) : Bool :=
  if field = "flight_id" then decide (flight.flight_id = value)
  else if field = "origin" then decide (flight.origin = value)
  else if field = "destination" then decide (flight.destination = value)
  else if field = "departure_datetime" then
    match strptimeYmdHM flight.departure_datetime, strptimeYmdHM value with
    | some flight_dt, some query_dt => !dtLt flight_dt query_dt
    | _, _ => false
  else if field = "arrival_datetime" then
    match strptimeYmdHM flight.arrival_datetime, strptimeYmdHM value with
    | some flight_dt, some query_dt => !dtLt query_dt flight_dt
    | _, _ => false
  else if field = "price" then
    match pyFloat value with
    | some query_price => !PyFloat.gt flight.price query_price
    | none => false
  else true

/-- Specification-side query match: the conjunction of all field
predicates. -/
def specQueryMatch (flight : Flight) (query : List (String × String)) : Bool :=
  query.all fun p => specFieldOk flight p.1 p.2

/-- Specification-side accumulated error list of the record validator for a
6-field record, written as §4.2 of the specification reads: trim every
field, then the checks of steps 3–7 in order, each contributing its error
messages; the ordering check runs only when both datetimes parsed. -/
def specFieldErrors (record : List String) : List String :=
  match record.map pyStrip with
  | [flight_id, origin, destination, departure_dt, arrival_dt, price] =>
    (if flight_id = "" then ["missing flight_id"]
     else if validate_flight_id flight_id then []
     else if flight_id.length < 2 then
       ["flight_id too short (less than 2 characters)"]
     else if 8 < flight_id.length then
       ["flight_id too long (more than 8 characters)"]
     else ["flight_id must be alphanumeric"]) ++
    (if origin = "" then ["missing origin"]
     else if validate_airport_code origin then [] else ["invalid origin code"]) ++
    (if destination = "" then ["missing destination"]
     else if validate_airport_code destination then []
     else ["invalid destination code"]) ++
    (if departure_dt = "" then ["missing departure_datetime"]
     else if validate_datetime departure_dt then []
     else ["invalid departure datetime"]) ++
    (if arrival_dt = "" then ["missing arrival_datetime"]
     else if !validate_datetime arrival_dt then ["invalid arrival datetime"]
     else if validate_datetime departure_dt &&
         !validate_times departure_dt arrival_dt then
       ["arrival before departure"]
     else []) ++
    (if price = "" then ["missing price"]
     else if validate_price price then []
     else
       match pyFloat price with
       | some v =>
         if PyFloat.le v (.fin 0) then ["price must be positive"]
         else ["invalid price format"]
       | none => ["invalid price format"])
  | _ => []

/-! Helper lemmas. -/

/-- Characterisation of `inRange` through `Char.toNat` (the order on `Char`
is the order on the code points). -/
theorem inRange_iff {lo hi c : Char} :
    inRange lo hi c = true ↔ lo.toNat ≤ c.toNat ∧ c.toNat ≤ hi.toNat := by
  simp only [inRange, decide_eq_true_eq]
  exact Iff.rfl

/-- Characterisation of `isDig` through `Char.toNat`. -/
theorem isDig_iff {c : Char} : isDig c = true ↔ 48 ≤ c.toNat ∧ c.toNat ≤ 57 :=
  inRange_iff

/-- A digit character is not a whitespace character. -/
theorem isDig_not_space {c : Char} (h : isDig c = true) : pyIsSpace c = false := by
  simp only [pyIsSpace, decide_eq_false_iff_not]
  rintro (rfl | rfl | rfl | rfl | rfl | rfl) <;> exact absurd h (by decide)

/-- A digit character is not the minus sign. -/
theorem isDig_ne_dash {c : Char} (h : isDig c = true) : c ≠ '-' := by
  rintro rfl
  exact absurd h (by decide)

/-- A digit character is not the colon. -/
theorem isDig_ne_colon {c : Char} (h : isDig c = true) : c ≠ ':' := by
  rintro rfl
  exact absurd h (by decide)

/-- The loop of `load_json_database` accumulates exactly the re-validated
records, in document order. -/
theorem loadLoop_eq_filterMap (data : List StructuredRecord) (acc : List Flight) :
    loadLoop acc data = acc ++ data.filterMap validateStructured := by
  induction data generalizing acc with
  | nil => simp [loadLoop]
  | cons r rest ih =>
    cases h : validateStructured r <;>
      simp [loadLoop, h, ih]

/-- An empty accumulated error list means every field-level check of the
record validator passed. -/
theorem recordErrors_eq_nil {fid org dst dep arr pr : String}
    (h : recordErrors fid org dst dep arr pr = []) :
    validate_flight_id fid = true ∧ validate_airport_code org = true ∧
    validate_airport_code dst = true ∧ validate_datetime dep = true ∧
    validate_datetime arr = true ∧ validate_times dep arr = true ∧
    validate_price pr = true := by
  simp only [recordErrors, flightIdErrors, originErrors, destinationErrors,
    departureErrors, arrivalErrors, priceErrors, List.append_eq_nil] at h
  obtain ⟨⟨⟨⟨⟨h1, h2⟩, h3⟩, h4⟩, h5⟩, h6⟩ := h
  have hfid : validate_flight_id fid = true := by
    by_cases hE : fid = ""
    · rw [if_pos hE] at h1
      exact absurd h1 (by simp)
    · rw [if_neg hE] at h1
      by_cases hV : validate_flight_id fid = true
      · exact hV
      · rw [if_pos (by simp [hV])] at h1
        split_ifs at h1
  have horg : validate_airport_code org = true := by
    by_cases hE : org = ""
    · rw [if_pos hE] at h2
      exact absurd h2 (by simp)
    · rw [if_neg hE] at h2
      by_cases hV : validate_airport_code org = true
      · exact hV
      · rw [if_pos (by simp [hV])] at h2
        exact absurd h2 (by simp)
  have hdst : validate_airport_code dst = true := by
    by_cases hE : dst = ""
    · rw [if_pos hE] at h3
      exact absurd h3 (by simp)
    · rw [if_neg hE] at h3
      by_cases hV : validate_airport_code dst = true
      · exact hV
      · rw [if_pos (by simp [hV])] at h3
        exact absurd h3 (by simp)
  have hdep : validate_datetime dep = true := by
    by_cases hE : dep = ""
    · rw [if_pos hE] at h4
      exact absurd h4 (by simp)
    · rw [if_neg hE] at h4
      by_cases hV : validate_datetime dep = true
      · exact hV
      · rw [if_pos (by simp [hV])] at h4
        exact absurd h4 (by simp)
  have harr : validate_datetime arr = true := by
    by_cases hE : arr = ""
    · rw [if_pos hE] at h5
      exact absurd h5 (by simp)
    · rw [if_neg hE] at h5
      by_cases hV : validate_datetime arr = true
      · exact hV
      · rw [if_pos (by simp [hV])] at h5
        exact absurd h5 (by simp)
  have htimes : validate_times dep arr = true := by
    by_cases hE : arr = ""
    · rw [if_pos hE] at h5
      exact absurd h5 (by simp)
    · rw [if_neg hE] at h5
      rw [if_neg (by simp [harr])] at h5
      by_cases hT : validate_times dep arr = true
      · exact hT
      · rw [if_pos (by simp [hdep, harr, hT])] at h5
        exact absurd h5 (by simp)
  have hprice : validate_price pr = true := by
    by_cases hE : pr = ""
    · rw [if_pos hE] at h6
      exact absurd h6 (by simp)
    · rw [if_neg hE] at h6
      by_cases hV : validate_price pr = true
      · exact hV
      · rw [if_pos (by simp [hV])] at h6
        cases hpf : pyFloat pr with
        | none =>
          rw [hpf] at h6
          exact absurd h6 (by simp)
        | some v =>
          rw [hpf] at h6
          have h6' : (if PyFloat.le v (PyFloat.fin 0) = true then
              ["price must be positive"]
            else ["invalid price format"]) = [] := h6
          split_ifs at h6'
  exact ⟨hfid, horg, hdst, hdep, harr, htimes, hprice⟩

/-- The lexicographic datetime order is irreflexive. -/
theorem dtLt_self (t : DT) : dtLt t t = false := by
  simp [dtLt]

/-! Claim theorems. -/

/-- C6: for every raw record with fewer than 6 fields the record validator
returns no flight and exactly the single error "missing required fields";
for every raw record with more than 6 fields it returns no flight and
exactly the single error "extra fields"; in both cases no field-level check
contributes any further message. -/
theorem c6_arity_single_error (record : List String) :
    (record.length < 6 →
      parse_flight_record record = (false, none, ["missing required fields"])) ∧
    (6 < record.length →
      parse_flight_record record = (false, none, ["extra fields"])) := by
  constructor
  · intro h
    rcases record with
      _ | ⟨a, _ | ⟨b, _ | ⟨c, _ | ⟨d, _ | ⟨e, _ | ⟨f, _ | ⟨g, tail⟩⟩⟩⟩⟩⟩⟩
    · rfl
    · rfl
    · rfl
    · rfl
    · rfl
    · rfl
    · simp at h
    · simp only [List.length_cons] at h
      omega
  · intro h
    rcases record with
      _ | ⟨a, _ | ⟨b, _ | ⟨c, _ | ⟨d, _ | ⟨e, _ | ⟨f, _ | ⟨g, tail⟩⟩⟩⟩⟩⟩⟩
    · simp at h
    · simp at h
    · simp at h
    · simp at h
    · simp at h
    · simp at h
    · simp at h
    · simp only [parse_flight_record]
      rw [if_neg (by simp only [List.length_cons]; omega)]

/-- Witness for C6 at two concrete inputs. -/
theorem c6_arity_single_error_witness :
    parse_flight_record [] = (false, none, ["missing required fields"]) ∧
    parse_flight_record ["a", "b", "c", "d", "e", "f", "g"] =
      (false, none, ["extra fields"]) :=
  ⟨(c6_arity_single_error []).1 (by decide),
   (c6_arity_single_error ["a", "b", "c", "d", "e", "f", "g"]).2 (by decide)⟩

/-- C10: after `load_json_database` the valid-record collection equals
exactly the sequence of records of the document that passed re-validation,
in document order; the previous contents of the collection are discarded
(the result does not depend on the prior state) and the diagnostics are
untouched. -/
theorem c10_load_json_database_replaces (st : ParserState)
    (data : List StructuredRecord) :
    (load_json_database st data).valid_flights =
      data.filterMap validateStructured ∧
    (load_json_database st data).errors = st.errors := by
  refine ⟨?_, rfl⟩
  simp [load_json_database, loadLoop_eq_filterMap]

/-- C7 counterexample: a row consisting of a single empty field is not
skipped silently; it is passed to the record validator and recorded as a
"missing required fields" diagnostic. -/
theorem c7_counterexample :
    processCsvRow initState "flights.csv" 2 [""] =
      ⟨[], [⟨"flights.csv", 2, "", "missing required fields"⟩]⟩ ∧
    processCsvRow initState "flights.csv" 2 [""] ≠ initState := by
  decide

/-- C7 amended: during CSV ingestion a row with no fields is skipped
silently (no diagnostic, no flight, state unchanged); a row consisting of a
single empty field is instead passed to the record validator and yields a
"missing required fields" diagnostic. -/
theorem c7_empty_row_handling (st : ParserState) (file_path : String) (n : Nat) :
    processCsvRow st file_path n [] = st ∧
    processCsvRow st file_path n [""] =
      { st with errors := st.errors ++
          [⟨file_path, n, "", "missing required fields"⟩] } := by
  constructor
  · rfl
  · have h1 : parse_flight_record [""] =
        (false, none, ["missing required fields"]) := by decide
    have h2 : startsWithHash (pyStrip "") = false := by decide
    have h3 : String.intercalate "," [""] = "" := by decide
    have h4 : String.intercalate "; " ["missing required fields"] =
        "missing required fields" := by decide
    simp [processCsvRow, h1, h2, h3, h4]

/-- C8 counterexample: the flight-id validator accepts a string with a
trailing newline, which the whole-string pattern of the specification
rejects. -/
theorem c8_counterexample :
    validate_flight_id "AB\n" = true ∧ specFlightIdExact "AB\n" = false := by
  decide

/-- C8 amended: `validate_flight_id` returns true iff the string consists of
2 to 8 ASCII letters or digits, or of such a core followed by exactly one
trailing newline (Python's `$` anchor also matches just before a final
newline); any other extra character makes it return false. -/
theorem c8_flight_id_characterization (s : String) :
    validate_flight_id s = true ↔
      ((2 ≤ s.data.length ∧ s.data.length ≤ 8 ∧
          ∀ c ∈ s.data, isAsciiAlnum c = true) ∨
       (∃ t : List Char, s.data = t ++ ['\n'] ∧ 2 ≤ t.length ∧ t.length ≤ 8 ∧
          ∀ c ∈ t, isAsciiAlnum c = true)) := by
  unfold validate_flight_id regexFullDollar dollarAt
  simp only [List.any_eq_true, List.mem_range, Bool.and_eq_true,
    decide_eq_true_eq, List.all_eq_true]
  constructor
  · rintro ⟨k, hk9, ⟨⟨h2, hlen⟩, hall⟩, hd | hd⟩
    · left
      have hlenk : s.data.length = k := by
        have := List.drop_eq_nil_iff.mp hd
        omega
      refine ⟨by omega, by omega, fun c hc => hall c ?_⟩
      rw [← hlenk, List.take_length]
      exact hc
    · right
      refine ⟨s.data.take k, ?_, ?_, ?_, fun c hc => hall c hc⟩
      · conv_lhs => rw [← List.take_append_drop k s.data, hd]
      · simp only [List.length_take]
        omega
      · simp only [List.length_take]
        omega
  · rintro (⟨h2, h8, hall⟩ | ⟨t, ht, h2, h8, hall⟩)
    · refine ⟨s.data.length, by omega, ⟨⟨h2, le_refl _⟩, fun c hc => ?_⟩, Or.inl ?_⟩
      · exact hall c (by simpa using List.mem_of_mem_take hc)
      · simp
    · refine ⟨t.length, by omega, ⟨⟨h2, ?_⟩, fun c hc => ?_⟩, Or.inr ?_⟩
      · rw [ht]
        simp
      · rw [ht, List.take_left] at hc
        exact hall c hc
      · rw [ht, List.drop_left]

/-- C4: under a `departure_datetime` predicate a flight matches iff its
departure is not earlier than the query value, and under an
`arrival_datetime` predicate a flight matches iff its arrival is not later
than the query value; both comparisons are inclusive, so equal timestamps
match. -/
theorem c4_datetime_predicates_inclusive (flight : Flight) (vdep varr : String)
    (fdep farr qdep qarr : DT)
    (hd : strptimeYmdHM flight.departure_datetime = some fdep)
    (hqd : strptimeYmdHM vdep = some qdep)
    (ha : strptimeYmdHM flight.arrival_datetime = some farr)
    (hqa : strptimeYmdHM varr = some qarr) :
    (flightMatches flight [("departure_datetime", vdep)] = some true ↔
      dtLt fdep qdep = false) ∧
    (flightMatches flight [("arrival_datetime", varr)] = some true ↔
      dtLt qarr farr = false) ∧
    (fdep = qdep → flightMatches flight [("departure_datetime", vdep)] = some true) ∧
    (farr = qarr → flightMatches flight [("arrival_datetime", varr)] = some true) := by
  have hdep : flightMatches flight [("departure_datetime", vdep)] =
      some (!dtLt fdep qdep) := by
    simp [flightMatches, queryFieldTest, hd, hqd]
    cases dtLt fdep qdep <;> rfl
  have harr : flightMatches flight [("arrival_datetime", varr)] =
      some (!dtLt qarr farr) := by
    simp [flightMatches, queryFieldTest, ha, hqa]
    cases dtLt qarr farr <;> rfl
  refine ⟨?_, ?_, ?_, ?_⟩
  · rw [hdep]
    cases dtLt fdep qdep <;> simp
  · rw [harr]
    cases dtLt qarr farr <;> simp
  · rintro rfl
    rw [hdep, dtLt_self]
    rfl
  · rintro rfl
    rw [harr, dtLt_self]
    rfl

/-- Witness for C4: a flight departing and arriving exactly at the query
values matches both predicates. -/
theorem c4_datetime_predicates_inclusive_witness :
    flightMatches
        ⟨"AB1", "JFK", "LAX", "2024-01-01 10:00", "2024-01-01 14:00",
          PyFloat.fin 100⟩
        [("departure_datetime", "2024-01-01 10:00")] = some true ∧
    flightMatches
        ⟨"AB1", "JFK", "LAX", "2024-01-01 10:00", "2024-01-01 14:00",
          PyFloat.fin 100⟩
        [("arrival_datetime", "2024-01-01 14:00")] = some true :=
  ⟨(c4_datetime_predicates_inclusive
      ⟨"AB1", "JFK", "LAX", "2024-01-01 10:00", "2024-01-01 14:00",
        PyFloat.fin 100⟩
      "2024-01-01 10:00" "2024-01-01 14:00"
      ⟨2024, 1, 1, 10, 0⟩ ⟨2024, 1, 1, 14, 0⟩ ⟨2024, 1, 1, 10, 0⟩
      ⟨2024, 1, 1, 14, 0⟩ (by decide) (by decide) (by decide) (by decide)).2.2.1
      rfl,
   (c4_datetime_predicates_inclusive
      ⟨"AB1", "JFK", "LAX", "2024-01-01 10:00", "2024-01-01 14:00",
        PyFloat.fin 100⟩
      "2024-01-01 10:00" "2024-01-01 14:00"
      ⟨2024, 1, 1, 10, 0⟩ ⟨2024, 1, 1, 14, 0⟩ ⟨2024, 1, 1, 10, 0⟩
      ⟨2024, 1, 1, 14, 0⟩ (by decide) (by decide) (by decide) (by decide)).2.2.2
      rfl⟩

/-- C5: under a `price` predicate a flight matches iff its stored price is
not greater than the parsed query value (so a flight priced exactly at the
query value matches, and for finite values matching is exactly `≤`), and a
query whose price value does not parse as a float matches no flight at
all. -/
theorem c5_price_predicate (flight : Flight) (valid_flights : List Flight)
    (value : String) :
    (∀ query_price, pyFloat value = some query_price →
      (flightMatches flight [("price", value)] = some true ↔
        PyFloat.gt flight.price query_price = false)) ∧
    (∀ q : ℚ, flight.price = PyFloat.fin q →
      pyFloat value = some (PyFloat.fin q) →
      flightMatches flight [("price", value)] = some true) ∧
    (∀ q qp : ℚ, flight.price = PyFloat.fin q →
      pyFloat value = some (PyFloat.fin qp) →
      (flightMatches flight [("price", value)] = some true ↔ q ≤ qp)) ∧
    (pyFloat value = none →
      execute_query valid_flights [("price", value)] = some []) := by
  refine ⟨?_, ?_, ?_, ?_⟩
  · intro query_price hv
    have : flightMatches flight [("price", value)] =
        some (!PyFloat.gt flight.price query_price) := by
      simp [flightMatches, queryFieldTest, hv]
      cases PyFloat.gt flight.price query_price <;> rfl
    rw [this]
    cases PyFloat.gt flight.price query_price <;> simp
  · intro q hq hv
    have : flightMatches flight [("price", value)] =
        some (!PyFloat.gt flight.price (PyFloat.fin q)) := by
      simp [flightMatches, queryFieldTest, hv]
      cases PyFloat.gt flight.price (PyFloat.fin q) <;> rfl
    rw [this, hq]
    simp [PyFloat.gt]
  · intro q qp hq hv
    have : flightMatches flight [("price", value)] =
        some (!PyFloat.gt flight.price (PyFloat.fin qp)) := by
      simp [flightMatches, queryFieldTest, hv]
      cases PyFloat.gt flight.price (PyFloat.fin qp) <;> rfl
    rw [this, hq]
    simp [PyFloat.gt]
  · intro hv
    have hm : ∀ fl : Flight, flightMatches fl [("price", value)] = some false := by
      intro fl
      simp [flightMatches, queryFieldTest, hv]
    induction valid_flights with
    | nil => rfl
    | cons fl rest ih => simp [execute_query, hm, ih]

/-- Witness for C5: the boundary case and an unparseable price value. -/
theorem c5_price_predicate_witness :
    flightMatches
        ⟨"AB1", "JFK", "LAX", "2024-01-01 10:00", "2024-01-01 14:00",
          PyFloat.fin (mkRat 15000 100)⟩
        [("price", "150.00")] = some true ∧
    execute_query
        [⟨"AB1", "JFK", "LAX", "2024-01-01 10:00", "2024-01-01 14:00",
          PyFloat.fin (mkRat 15000 100)⟩]
        [("price", "abc")] = some [] :=
  ⟨(c5_price_predicate
      ⟨"AB1", "JFK", "LAX", "2024-01-01 10:00", "2024-01-01 14:00",
        PyFloat.fin (mkRat 15000 100)⟩ [] "150.00").2.1
      (mkRat 15000 100) rfl (by decide),
   (c5_price_predicate
      ⟨"AB1", "JFK", "LAX", "2024-01-01 10:00", "2024-01-01 14:00",
        PyFloat.fin (mkRat 15000 100)⟩
      [⟨"AB1", "JFK", "LAX", "2024-01-01 10:00", "2024-01-01 14:00",
        PyFloat.fin (mkRat 15000 100)⟩]
      "abc").2.2.2 (by decide)⟩

/-- The single-field test of the query loop agrees with the
specification-side predicate whenever the flight's datetimes are valid and
any datetime query value is valid. -/
theorem queryFieldTest_eq_spec (flight : Flight) (field value : String)
    (hfd : validate_datetime flight.departure_datetime = true)
    (hfa : validate_datetime flight.arrival_datetime = true)
    (hv : (field = "departure_datetime" ∨ field = "arrival_datetime") →
      validate_datetime value = true) :
    queryFieldTest flight field value = some (specFieldOk flight field value) := by
  obtain ⟨fdep, hfdep⟩ := Option.isSome_iff_exists.mp hfd
  obtain ⟨farr, hfarr⟩ := Option.isSome_iff_exists.mp hfa
  unfold queryFieldTest specFieldOk
  split_ifs with h1 h2 h3 h4 h5 h6
  · rfl
  · rfl
  · rfl
  · obtain ⟨qd, hqd⟩ := Option.isSome_iff_exists.mp (hv (Or.inl h4))
    rw [hfdep, hqd]
  · obtain ⟨qa, hqa⟩ := Option.isSome_iff_exists.mp (hv (Or.inr h5))
    rw [hfarr, hqa]
  · cases hp : pyFloat value <;> rfl
  · rfl

/-- The inner loop of `execute_query` computes the specification-side
conjunction of field predicates, under the same validity hypotheses. -/
theorem flightMatches_eq_spec (flight : Flight) (query : List (String × String))
    (hfd : validate_datetime flight.departure_datetime = true)
    (hfa : validate_datetime flight.arrival_datetime = true)
    (hq : ∀ p ∈ query, (p.1 = "departure_datetime" ∨ p.1 = "arrival_datetime") →
      validate_datetime p.2 = true) :
    flightMatches flight query = some (specQueryMatch flight query) := by
  induction query with
  | nil => rfl
  | cons p rest ih =>
    obtain ⟨field, value⟩ := p
    have hhead := hq (field, value) (List.mem_cons_self _ _)
    have hrest := fun p hp => hq p (List.mem_cons_of_mem _ hp)
    rw [flightMatches, queryFieldTest_eq_spec flight field value hfd hfa hhead]
    cases hb : specFieldOk flight field value
    · simp [specQueryMatch, hb]
    · rw [ih hrest]
      simp [specQueryMatch, hb]

/-- C2: for a query whose datetime values are well-formed and a collection
of flights with well-formed datetimes, the query engine returns exactly the
filtered sub-sequence of the collection (hence in original order, as
`List.filter` yields a sublist), where matching is the conjunction of the
recognized field predicates; a field name that is not one of the six
recognized names always tests as a pass, so it neither includes nor excludes
any flight. -/
theorem c2_query_engine_filter (valid_flights : List Flight)
    (query : List (String × String))
    (hf : ∀ fl ∈ valid_flights, validate_datetime fl.departure_datetime = true ∧
      validate_datetime fl.arrival_datetime = true)
    (hq : ∀ p ∈ query, (p.1 = "departure_datetime" ∨ p.1 = "arrival_datetime") →
      validate_datetime p.2 = true) :
    execute_query valid_flights query =
      some (valid_flights.filter fun fl => specQueryMatch fl query) ∧
    (valid_flights.filter fun fl => specQueryMatch fl query).Sublist
      valid_flights ∧
    (∀ field value (fl : Flight), field ∉ recognizedFields →
      queryFieldTest fl field value = some true) := by
  refine ⟨?_, List.filter_sublist _, ?_⟩
  · induction valid_flights with
    | nil => rfl
    | cons fl rest ih =>
      have hfl := hf fl (List.mem_cons_self _ _)
      have hrest := fun f hf' => hf f (List.mem_cons_of_mem _ hf')
      rw [execute_query, flightMatches_eq_spec fl query hfl.1 hfl.2 hq]
      cases hm : specQueryMatch fl query
      · simp [List.filter_cons, hm, ih hrest]
      · simp [List.filter_cons, hm, ih hrest]
  · intro field value fl hfield
    simp only [recognizedFields, List.mem_cons, List.not_mem_nil, or_false,
      not_or] at hfield
    obtain ⟨n1, n2, n3, n4, n5, n6⟩ := hfield
    simp [queryFieldTest, n1, n2, n3, n4, n5, n6]

/-- Witness for C2 on a concrete database and a query with one recognized
and one unrecognized field. -/
theorem c2_query_engine_filter_witness :
    execute_query
      [⟨"AB1", "JFK", "LAX", "2024-01-01 10:00", "2024-01-01 14:00",
          PyFloat.fin 100⟩,
       ⟨"CD2", "CDG", "LAX", "2024-01-01 10:00", "2024-01-01 14:00",
          PyFloat.fin 100⟩]
      [("origin", "JFK"), ("cabin", "economy")] =
      some (List.filter
        (fun fl => specQueryMatch fl [("origin", "JFK"), ("cabin", "economy")])
        [⟨"AB1", "JFK", "LAX", "2024-01-01 10:00", "2024-01-01 14:00",
            PyFloat.fin 100⟩,
         ⟨"CD2", "CDG", "LAX", "2024-01-01 10:00", "2024-01-01 14:00",
            PyFloat.fin 100⟩]) :=
  (c2_query_engine_filter
    [⟨"AB1", "JFK", "LAX", "2024-01-01 10:00", "2024-01-01 14:00",
        PyFloat.fin 100⟩,
     ⟨"CD2", "CDG", "LAX", "2024-01-01 10:00", "2024-01-01 14:00",
        PyFloat.fin 100⟩]
    [("origin", "JFK"), ("cabin", "economy")]
    (by decide) (by decide)).1

/-- Rounding to two decimals of a value that is already an integer number
of hundredths returns that number of hundredths. -/
theorem roundHalfEven2_mkRat (n : Int) : roundHalfEven2 (mkRat n 100) = n := by
  set q := mkRat n 100 with hq
  have hden : (0 : ℤ) < (q.den : ℤ) := by exact_mod_cast q.pos
  have key : q.num * 100 = n * (q.den : ℤ) := by
    have h1 : (q : ℚ) = (n : ℚ) / 100 := by
      rw [hq, Rat.mkRat_eq_div]
      norm_num
    have h2 : (q.num : ℚ) / (q.den : ℚ) = (n : ℚ) / 100 := by
      rw [Rat.num_div_den]
      exact h1
    have hdnz : ((q.den : ℚ)) ≠ 0 := by positivity
    field_simp at h2
    exact_mod_cast h2
  have hfd : Int.fdiv (n * (q.den : ℤ)) (q.den : ℤ) = n :=
    Int.mul_fdiv_cancel n (by omega)
  simp only [roundHalfEven2, key, hfd]
  have hz : n * (q.den : ℤ) - n * (q.den : ℤ) = 0 := by ring
  rw [hz]
  rw [if_pos (by omega)]

/-- Python's `round(x, 2)` is idempotent. -/
theorem roundTo2_roundTo2 (x : PyFloat) : roundTo2 (roundTo2 x) = roundTo2 x := by
  cases x with
  | fin q => simp [roundTo2, roundHalfEven2_mkRat]
  | inf b => rfl
  | nan => rfl

/-- C9 counterexample: the record validator accepts a record with price
`0.001` (it is positive), but rounds the stored price to `0.0`, and the
database loader then rejects that flight, so the round trip loses it. -/
theorem c9_counterexample :
    parse_flight_record
        ["AB1", "JFK", "LAX", "2024-01-01 10:00", "2024-01-01 14:00", "0.001"] =
      (true, some ⟨"AB1", "JFK", "LAX", "2024-01-01 10:00",
        "2024-01-01 14:00", PyFloat.fin 0⟩, []) ∧
    validateStructured (flightToStructured
        ⟨"AB1", "JFK", "LAX", "2024-01-01 10:00", "2024-01-01 14:00",
          PyFloat.fin 0⟩) = none := by
  decide

/-- C9 amended: for every 6-field record accepted by the record validator
whose resulting flight has a positive stored (rounded) price, re-validating
that flight through the database loader accepts it and yields the identical
flight. -/
theorem c9_roundtrip_for_positive_price (record : List String) (f : Flight)
    (hp : parse_flight_record record = (true, some f, []))
    (hpos : PyFloat.le f.price (PyFloat.fin 0) = false) :
    validateStructured (flightToStructured f) = some f := by
  rcases record with
    _ | ⟨a, _ | ⟨b, _ | ⟨c, _ | ⟨d, _ | ⟨e, _ | ⟨p, _ | ⟨g, tail⟩⟩⟩⟩⟩⟩⟩
  · exact absurd hp (by simp [parse_flight_record])
  · exact absurd hp (by simp [parse_flight_record])
  · exact absurd hp (by simp [parse_flight_record])
  · exact absurd hp (by simp [parse_flight_record])
  · exact absurd hp (by simp [parse_flight_record])
  · exact absurd hp (by simp [parse_flight_record])
  case cons.cons.cons.cons.cons.cons.nil =>
    simp only [parse_flight_record] at hp
    rw [ite_eq_iff] at hp
    rcases hp with ⟨he, hp⟩ | ⟨he, hp⟩
    swap
    · exact absurd hp (by simp)
    rw [List.isEmpty_iff] at he
    obtain ⟨hfid, horg, hdst, hdep, harr, htimes, hprice⟩ :=
      recordErrors_eq_nil he
    simp only [Prod.mk.injEq, Option.some.injEq, true_and, and_true] at hp
    subst hp
    simp only [flightToStructured, validateStructured]
    rw [if_pos hfid, if_pos horg, if_pos hdst, if_pos hdep, if_pos harr,
      if_pos htimes]
    rw [if_neg (by simp only [hpos]; exact Bool.false_ne_true)]
    rw [roundTo2_roundTo2]
  · simp only [parse_flight_record] at hp
    split at hp <;> simp at hp

/-- Witness for C9 at a concrete well-formed record with positive price. -/
theorem c9_roundtrip_for_positive_price_witness :
    validateStructured (flightToStructured
        ⟨"AB1", "JFK", "LAX", "2024-01-01 10:00", "2024-01-01 14:00",
          PyFloat.fin 100⟩) =
      some ⟨"AB1", "JFK", "LAX", "2024-01-01 10:00", "2024-01-01 14:00",
        PyFloat.fin 100⟩ :=
  c9_roundtrip_for_positive_price
    ["AB1", "JFK", "LAX", "2024-01-01 10:00", "2024-01-01 14:00", "100"]
    ⟨"AB1", "JFK", "LAX", "2024-01-01 10:00", "2024-01-01 14:00",
      PyFloat.fin 100⟩
    (by decide) (by decide)

/-- Every message of the flight-id block is one of its four literals. -/
theorem flightIdErrors_msgs {s x : String} (h : x ∈ flightIdErrors s) :
    x = "missing flight_id" ∨
    x = "flight_id too short (less than 2 characters)" ∨
    x = "flight_id too long (more than 8 characters)" ∨
    x = "flight_id must be alphanumeric" := by
  unfold flightIdErrors at h
  split_ifs at h <;> simp_all

/-- Every message of the origin block is one of its two literals. -/
theorem originErrors_msgs {s x : String} (h : x ∈ originErrors s) :
    x = "missing origin" ∨ x = "invalid origin code" := by
  unfold originErrors at h
  split_ifs at h <;> simp_all

/-- Every message of the destination block is one of its two literals. -/
theorem destinationErrors_msgs {s x : String} (h : x ∈ destinationErrors s) :
    x = "missing destination" ∨ x = "invalid destination code" := by
  unfold destinationErrors at h
  split_ifs at h <;> simp_all

/-- Every message of the price block is one of its three literals. -/
theorem priceErrors_msgs {s x : String} (h : x ∈ priceErrors s) :
    x = "missing price" ∨ x = "price must be positive" ∨
    x = "invalid price format" := by
  unfold priceErrors at h
  split_ifs at h
  · simp_all
  · cases hp : pyFloat s <;> rw [hp] at h
    · simp_all
    · rename_i v
      have h' : x ∈ (if PyFloat.le v (PyFloat.fin 0) = true then
          ["price must be positive"] else ["invalid price format"]) := h
      split_ifs at h' <;> simp_all
  · simp_all

/-- Membership of "invalid departure datetime" in the departure block. -/
theorem mem_departureErrors_invalid {dep : String} :
    "invalid departure datetime" ∈ departureErrors dep ↔
      (dep ≠ "" ∧ validate_datetime dep = false) := by
  unfold departureErrors
  split_ifs with h1 h2 <;> simp_all

/-- Membership of "invalid arrival datetime" in the arrival block. -/
theorem mem_arrivalErrors_invalid {dep arr : String} :
    "invalid arrival datetime" ∈ arrivalErrors dep arr ↔
      (arr ≠ "" ∧ validate_datetime arr = false) := by
  unfold arrivalErrors
  split_ifs with h1 h2 h3 <;> simp_all

/-- Membership of "arrival before departure" in the arrival block: it is
present exactly when both datetimes are valid and the ordering fails. -/
theorem mem_arrivalErrors_ord {dep arr : String} :
    "arrival before departure" ∈ arrivalErrors dep arr ↔
      (validate_datetime dep = true ∧ validate_datetime arr = true ∧
       validate_times dep arr = false) := by
  have hvde : validate_datetime "" = false := by decide
  unfold arrivalErrors
  split_ifs with h1 h2 h3
  · subst h1
    simp [hvde]
  · simp only [Bool.not_eq_true'] at h2
    simp [h2]
  · simp only [Bool.and_eq_true, Bool.not_eq_true'] at h3
    simp [h3.1.1, h3.1.2, h3.2]
  · simp only [Bool.not_eq_true', Bool.not_eq_false] at h2
    simp only [Bool.and_eq_true, Bool.not_eq_true', not_and] at h3
    simp only [List.not_mem_nil, false_iff, not_and]
    intro hd ha
    have := h3 ⟨hd, h2⟩
    simp_all

/-- Membership of "arrival before departure" in the whole accumulated error
list reduces to the arrival block. -/
theorem mem_recordErrors_ord (fid org dst dep arr pr : String) :
    "arrival before departure" ∈ recordErrors fid org dst dep arr pr ↔
      (validate_datetime dep = true ∧ validate_datetime arr = true ∧
       validate_times dep arr = false) := by
  have nf : ∀ s, "arrival before departure" ∉ flightIdErrors s := fun s h => by
    rcases flightIdErrors_msgs h with h' | h' | h' | h' <;> simp at h'
  have no : ∀ s, "arrival before departure" ∉ originErrors s := fun s h => by
    rcases originErrors_msgs h with h' | h' <;> simp at h'
  have nd : ∀ s, "arrival before departure" ∉ destinationErrors s := fun s h => by
    rcases destinationErrors_msgs h with h' | h' <;> simp at h'
  have ndep : "arrival before departure" ∉ departureErrors dep := fun h => by
    unfold departureErrors at h
    split_ifs at h <;> simp_all
  have np : ∀ s, "arrival before departure" ∉ priceErrors s := fun s h => by
    rcases priceErrors_msgs h with h' | h' | h' <;> simp at h'
  simp [recordErrors, List.mem_append, nf _, no _, nd _, ndep, np _,
    mem_arrivalErrors_ord]

/-- Membership of the two datetime format errors in the whole accumulated
error list reduces to their blocks. -/
theorem mem_recordErrors_invalid_dts (fid org dst dep arr pr : String) :
    ("invalid departure datetime" ∈ recordErrors fid org dst dep arr pr ↔
      (dep ≠ "" ∧ validate_datetime dep = false)) ∧
    ("invalid arrival datetime" ∈ recordErrors fid org dst dep arr pr ↔
      (arr ≠ "" ∧ validate_datetime arr = false)) := by
  constructor
  · have nf : ∀ s, "invalid departure datetime" ∉ flightIdErrors s := fun s h => by
      rcases flightIdErrors_msgs h with h' | h' | h' | h' <;> simp at h'
    have no : ∀ s, "invalid departure datetime" ∉ originErrors s := fun s h => by
      rcases originErrors_msgs h with h' | h' <;> simp at h'
    have nd : ∀ s, "invalid departure datetime" ∉ destinationErrors s :=
      fun s h => by rcases destinationErrors_msgs h with h' | h' <;> simp at h'
    have narr : "invalid departure datetime" ∉ arrivalErrors dep arr := fun h => by
      unfold arrivalErrors at h
      split_ifs at h <;> simp_all
    have np : ∀ s, "invalid departure datetime" ∉ priceErrors s := fun s h => by
      rcases priceErrors_msgs h with h' | h' | h' <;> simp at h'
    simp [recordErrors, List.mem_append, nf _, no _, nd _, narr, np _,
      mem_departureErrors_invalid]
  · have nf : ∀ s, "invalid arrival datetime" ∉ flightIdErrors s := fun s h => by
      rcases flightIdErrors_msgs h with h' | h' | h' | h' <;> simp at h'
    have no : ∀ s, "invalid arrival datetime" ∉ originErrors s := fun s h => by
      rcases originErrors_msgs h with h' | h' <;> simp at h'
    have nd : ∀ s, "invalid arrival datetime" ∉ destinationErrors s :=
      fun s h => by rcases destinationErrors_msgs h with h' | h' <;> simp at h'
    have ndep : "invalid arrival datetime" ∉ departureErrors dep := fun h => by
      unfold departureErrors at h
      split_ifs at h <;> simp_all
    have np : ∀ s, "invalid arrival datetime" ∉ priceErrors s := fun s h => by
      rcases priceErrors_msgs h with h' | h' | h' <;> simp at h'
    simp [recordErrors, List.mem_append, nf _, no _, nd _, ndep, np _,
      mem_arrivalErrors_invalid]

/-- For a 6-field record the third component of `parse_flight_record` is the
accumulated error list of the stripped fields (also in the success case,
where both are empty). -/
theorem parse_flight_record_errors (a b c d e p : String) :
    (parse_flight_record [a, b, c, d, e, p]).2.2 =
      recordErrors (pyStrip a) (pyStrip b) (pyStrip c) (pyStrip d)
        (pyStrip e) (pyStrip p) := by
  simp only [parse_flight_record]
  by_cases he : (recordErrors (pyStrip a) (pyStrip b) (pyStrip c) (pyStrip d)
      (pyStrip e) (pyStrip p)).isEmpty = true
  · rw [if_pos he]
    exact (List.isEmpty_iff.mp he).symm
  · rw [if_neg he]

/-- The flight-id block agrees with the specification's step 3. -/
theorem flightIdErrors_eq_spec (s : String) :
    flightIdErrors s =
      (if s = "" then ["missing flight_id"]
       else if validate_flight_id s then []
       else if s.length < 2 then ["flight_id too short (less than 2 characters)"]
       else if 8 < s.length then ["flight_id too long (more than 8 characters)"]
       else ["flight_id must be alphanumeric"]) := by
  unfold flightIdErrors
  split_ifs <;> simp_all

/-- The origin block agrees with the specification's step 4. -/
theorem originErrors_eq_spec (s : String) :
    originErrors s =
      (if s = "" then ["missing origin"]
       else if validate_airport_code s then [] else ["invalid origin code"]) := by
  unfold originErrors
  split_ifs <;> simp_all

/-- The destination block agrees with the specification's step 4. -/
theorem destinationErrors_eq_spec (s : String) :
    destinationErrors s =
      (if s = "" then ["missing destination"]
       else if validate_airport_code s then []
       else ["invalid destination code"]) := by
  unfold destinationErrors
  split_ifs <;> simp_all

/-- The departure block agrees with the specification's step 5. -/
theorem departureErrors_eq_spec (s : String) :
    departureErrors s =
      (if s = "" then ["missing departure_datetime"]
       else if validate_datetime s then []
       else ["invalid departure datetime"]) := by
  unfold departureErrors
  split_ifs <;> simp_all

/-- The arrival block agrees with the specification's step 6: the redundant
re-check of the arrival datetime in the source's ordering condition is
absorbed by the branch it sits in. -/
theorem arrivalErrors_eq_spec (dep arr : String) :
    arrivalErrors dep arr =
      (if arr = "" then ["missing arrival_datetime"]
       else if !validate_datetime arr then ["invalid arrival datetime"]
       else if validate_datetime dep && !validate_times dep arr then
         ["arrival before departure"]
       else []) := by
  unfold arrivalErrors
  by_cases h1 : arr = ""
  · simp [h1]
  · by_cases h2 : validate_datetime arr = true
    · simp [h1, h2]
    · simp only [Bool.not_eq_true] at h2
      simp [h1, h2]

/-- The price block agrees with the specification's step 7. -/
theorem priceErrors_eq_spec (s : String) :
    priceErrors s =
      (if s = "" then ["missing price"]
       else if validate_price s then []
       else
         match pyFloat s with
         | some v =>
           if PyFloat.le v (.fin 0) then ["price must be positive"]
           else ["invalid price format"]
         | none => ["invalid price format"]) := by
  unfold priceErrors
  split_ifs <;> simp_all

/-- The accumulated error list of the record validator coincides with the
specification-side error list. -/
theorem recordErrors_eq_specFieldErrors (a b c d e p : String) :
    recordErrors (pyStrip a) (pyStrip b) (pyStrip c) (pyStrip d) (pyStrip e)
      (pyStrip p) = specFieldErrors [a, b, c, d, e, p] := by
  simp only [specFieldErrors, List.map, recordErrors]
  rw [flightIdErrors_eq_spec, originErrors_eq_spec, destinationErrors_eq_spec,
    departureErrors_eq_spec, arrivalErrors_eq_spec, priceErrors_eq_spec]

/-- C1: for every 6-field raw record the record validator returns the full
accumulated list of every applicable field-level error (it equals the
specification-side list built from steps 3–7 in order); the error
"arrival before departure" appears exactly when both datetime fields
independently parse and the ordering fails, and never together with a
datetime format error; and the concrete record of scenario 2 yields both
"flight_id too short (less than 2 characters)" and
"arrival before departure". -/
theorem c1_record_validator_accumulates (record : List String)
    (h : record.length = 6) :
    ((parse_flight_record record).2.2 = specFieldErrors record) ∧
    (∀ a b c d e p : String, record = [a, b, c, d, e, p] →
      (("arrival before departure" ∈ (parse_flight_record record).2.2 ↔
         (validate_datetime (pyStrip d) = true ∧
          validate_datetime (pyStrip e) = true ∧
          validate_times (pyStrip d) (pyStrip e) = false)) ∧
       ("arrival before departure" ∈ (parse_flight_record record).2.2 →
         "invalid departure datetime" ∉ (parse_flight_record record).2.2 ∧
         "invalid arrival datetime" ∉ (parse_flight_record record).2.2))) ∧
    ("flight_id too short (less than 2 characters)" ∈
       (parse_flight_record
         ["A", "JFK", "LAX", "2024-01-01 10:00", "2024-01-01 09:00",
          "100"]).2.2 ∧
     "arrival before departure" ∈
       (parse_flight_record
         ["A", "JFK", "LAX", "2024-01-01 10:00", "2024-01-01 09:00",
          "100"]).2.2) := by
  rcases record with
    _ | ⟨a, _ | ⟨b, _ | ⟨c, _ | ⟨d, _ | ⟨e, _ | ⟨p, _ | ⟨g, tail⟩⟩⟩⟩⟩⟩⟩
  · simp at h
  · simp at h
  · simp at h
  · simp at h
  · simp at h
  · simp at h
  case cons.cons.cons.cons.cons.cons.nil =>
    refine ⟨?_, ?_, by decide, by decide⟩
    · rw [parse_flight_record_errors, recordErrors_eq_specFieldErrors]
    · intro a' b' c' d' e' p' hr
      obtain ⟨rfl, rfl, rfl, rfl, rfl, rfl⟩ : a = a' ∧ b = b' ∧ c = c' ∧
          d = d' ∧ e = e' ∧ p = p' := by
        simpa using hr
      rw [parse_flight_record_errors]
      refine ⟨mem_recordErrors_ord _ _ _ _ _ _, fun hord => ?_⟩
      rw [mem_recordErrors_ord] at hord
      constructor
      · rw [(mem_recordErrors_invalid_dts _ _ _ _ _ _).1]
        rintro ⟨-, hbad⟩
        rw [hord.1] at hbad
        exact Bool.noConfusion hbad
      · rw [(mem_recordErrors_invalid_dts _ _ _ _ _ _).2]
        rintro ⟨-, hbad⟩
        rw [hord.2.1] at hbad
        exact Bool.noConfusion hbad
  · simp only [List.length_cons] at h
    omega

/-- Witness for C1: the full statement applied at the concrete record of
scenario 2. -/
theorem c1_record_validator_accumulates_witness :
    "flight_id too short (less than 2 characters)" ∈
      (parse_flight_record
        ["A", "JFK", "LAX", "2024-01-01 10:00", "2024-01-01 09:00",
         "100"]).2.2 ∧
    "arrival before departure" ∈
      (parse_flight_record
        ["A", "JFK", "LAX", "2024-01-01 10:00", "2024-01-01 09:00",
         "100"]).2.2 :=
  (c1_record_validator_accumulates
    ["A", "JFK", "LAX", "2024-01-01 10:00", "2024-01-01 09:00", "100"]
    (by decide)).2.2

/-- C3 counterexample: `strptime` accepts a non-zero-padded month, which the
exact `YYYY-MM-DD HH:MM` pattern of the specification rejects. -/
theorem c3_counterexample :
    validate_datetime "2024-1-01 10:00" = true ∧
    specDateTimeExact "2024-1-01 10:00" = false := by
  decide

/-! Equivalence of the `strptime` embedding with the flexible
specification-side pattern.  The component lemmas below convert the
backtracking candidate search of each regex component into the committed
two-digit read `readNum2` plus a range check; the hypothesis `hk` expresses
that the rest of the pattern can never start with a digit, which is why the
one-digit fallback candidates die immediately. -/

/-- Code point of the character literals used in the component regexes. -/
theorem charVal0 : ('0').toNat = 48 := rfl

/-- Code point of `'1'`. -/
theorem charVal1 : ('1').toNat = 49 := rfl

/-- Code point of `'2'`. -/
theorem charVal2 : ('2').toNat = 50 := rfl

/-- Code point of `'3'`. -/
theorem charVal3 : ('3').toNat = 51 := rfl

/-- Code point of `'5'`. -/
theorem charVal5 : ('5').toNat = 53 := rfl

/-- Code point of `'9'`. -/
theorem charVal9 : ('9').toNat = 57 := rfl

/-- The first-match search over a single candidate is that candidate's
continuation. -/
theorem findSome?_singleton {α β : Type} (f : α → Option β) (x : α) :
    List.findSome? f [x] = f x := by
  cases h : f x <;> simp [List.findSome?_cons, h]

/-- The first-match search over two candidates of which the second fails is
the first candidate's continuation. -/
theorem findSome?_pair_none {α β : Type} (f : α → Option β) (x y : α)
    (hy : f y = none) : List.findSome? f [x, y] = f x := by
  cases hx : f x <;> simp [List.findSome?_cons, hx, hy]

/-- A character range test evaluates to false outside the range. -/
theorem inRange_eq_false (lo hi c : Char)
    (h : ¬(lo.toNat ≤ c.toNat ∧ c.toNat ≤ hi.toNat)) :
    inRange lo hi c = false := by
  cases hx : inRange lo hi c
  · rfl
  · exact absurd (inRange_iff.mp hx) h

/-- A character range test evaluates to true inside the range. -/
theorem inRange_eq_true (lo hi c : Char)
    (h : lo.toNat ≤ c.toNat ∧ c.toNat ≤ hi.toNat) :
    inRange lo hi c = true := inRange_iff.mpr h

/-- Numeric consequence of a failed digit test. -/
theorem isDig_false_nat {c : Char} (h : isDig c = false) :
    ¬(48 ≤ c.toNat ∧ c.toNat ≤ 57) := fun hx => by
  rw [isDig_iff.mpr hx] at h
  exact Bool.noConfusion h

/-- A digit's value is at most 9. -/
theorem dv_le9 {c : Char} (h : isDig c = true) : dv c ≤ 9 := by
  have := isDig_iff.mp h
  simp only [dv]
  omega

/-- Unfolding of `validate_datetime` through `postCheck`. -/
theorem validate_datetime_eq_postCheck (s : String) :
    validate_datetime s = postCheck (matchYmdHM s.data) := by
  unfold validate_datetime strptimeYmdHM postCheck
  cases matchYmdHM s.data with
  | none => rfl
  | some pr =>
    obtain ⟨t, rest⟩ := pr
    by_cases hc : (rest.isEmpty && datetimeCtorOk t) = true
    · simp [hc]
    · simp only [Bool.not_eq_true] at hc
      simp [hc]

/-- A non-digit head admits no month candidate. -/
theorem monthCands_nodig (c1 : Char) (rs : List Char) (h1 : isDig c1 = false) :
    monthCands (c1 :: rs) = [] := by
  have hn1 := isDig_false_nat h1
  have hA : inRange '1' '1' c1 = false :=
    inRange_eq_false _ _ _ (by rw [charVal1]; omega)
  have hB : inRange '0' '0' c1 = false :=
    inRange_eq_false _ _ _ (by rw [charVal0]; omega)
  have hC : inRange '1' '9' c1 = false :=
    inRange_eq_false _ _ _ (by rw [charVal1, charVal9]; omega)
  rcases rs with _ | ⟨c2, r⟩ <;> simp [monthCands, hA, hB, hC]

/-- Month candidates of a single digit. -/
theorem monthCands_single {α : Type} (c1 : Char) (k : Nat → List Char → Option α)
    (h1 : isDig c1 = true) :
    List.findSome? (fun p => k p.1 p.2) (monthCands [c1]) =
      (if 1 ≤ dv c1 ∧ dv c1 ≤ 12 then k (dv c1) [] else none) := by
  have hn1 := isDig_iff.mp h1
  rcases Nat.lt_or_ge c1.toNat 49 with hb | hb
  · have hC : inRange '1' '9' c1 = false :=
      inRange_eq_false _ _ _ (by rw [charVal1, charVal9]; omega)
    have hlist : monthCands [c1] = [] := by simp [monthCands, hC]
    rw [hlist, if_neg (by simp only [dv]; omega)]
    rfl
  · have hC : inRange '1' '9' c1 = true :=
      inRange_eq_true _ _ _ (by rw [charVal1, charVal9]; omega)
    have hlist : monthCands [c1] = [(dv c1, [])] := by simp [monthCands, hC]
    rw [hlist, findSome?_singleton, if_pos (by simp only [dv]; omega)]

/-- Month candidates of a digit followed by a non-digit. -/
theorem monthCands_onedigit {α : Type} (c1 c2 : Char) (rs : List Char)
    (k : Nat → List Char → Option α)
    (h1 : isDig c1 = true) (h2 : isDig c2 = false) :
    List.findSome? (fun p => k p.1 p.2) (monthCands (c1 :: c2 :: rs)) =
      (if 1 ≤ dv c1 ∧ dv c1 ≤ 12 then k (dv c1) (c2 :: rs) else none) := by
  have hn1 := isDig_iff.mp h1
  have hn2 := isDig_false_nat h2
  have hA2 : inRange '0' '2' c2 = false :=
    inRange_eq_false _ _ _ (by rw [charVal0, charVal2]; omega)
  have hB2 : inRange '1' '9' c2 = false :=
    inRange_eq_false _ _ _ (by rw [charVal1, charVal9]; omega)
  rcases Nat.lt_or_ge c1.toNat 49 with hb | hb
  · have hC : inRange '1' '9' c1 = false :=
      inRange_eq_false _ _ _ (by rw [charVal1, charVal9]; omega)
    have hlist : monthCands (c1 :: c2 :: rs) = [] := by
      simp [monthCands, hA2, hB2, hC]
    rw [hlist, if_neg (by simp only [dv]; omega)]
    rfl
  · have hC : inRange '1' '9' c1 = true :=
      inRange_eq_true _ _ _ (by rw [charVal1, charVal9]; omega)
    have hlist : monthCands (c1 :: c2 :: rs) = [(dv c1, c2 :: rs)] := by
      simp [monthCands, hA2, hB2, hC]
    rw [hlist, findSome?_singleton, if_pos (by simp only [dv]; omega)]

/-- Month candidates of two digits: the backtracking search equals the
committed two-digit value with the 1–12 range check, provided the
continuation fails on any digit-headed remainder. -/
theorem monthCands_two {α : Type} (c1 c2 : Char) (rs : List Char)
    (k : Nat → List Char → Option α)
    (hk : ∀ v c r, isDig c = true → k v (c :: r) = none)
    (h1 : isDig c1 = true) (h2 : isDig c2 = true) :
    List.findSome? (fun p => k p.1 p.2) (monthCands (c1 :: c2 :: rs)) =
      (if 1 ≤ 10 * dv c1 + dv c2 ∧ 10 * dv c1 + dv c2 ≤ 12 then
        k (10 * dv c1 + dv c2) rs else none) := by
  have hn1 := isDig_iff.mp h1
  have hn2 := isDig_iff.mp h2
  have hkill : k (dv c1) (c2 :: rs) = none := hk (dv c1) c2 rs h2
  rcases Nat.lt_or_ge c1.toNat 49 with hb | hb
  · -- first digit is 0
    have hA1 : inRange '1' '1' c1 = false :=
      inRange_eq_false _ _ _ (by rw [charVal1]; omega)
    have hB1 : inRange '0' '0' c1 = true :=
      inRange_eq_true _ _ _ (by rw [charVal0]; omega)
    have hC : inRange '1' '9' c1 = false :=
      inRange_eq_false _ _ _ (by rw [charVal1, charVal9]; omega)
    rcases Nat.lt_or_ge c2.toNat 49 with hc | hc
    · have hB2 : inRange '1' '9' c2 = false :=
        inRange_eq_false _ _ _ (by rw [charVal1, charVal9]; omega)
      have hlist : monthCands (c1 :: c2 :: rs) = [] := by
        simp [monthCands, hA1, hB1, hB2, hC]
      rw [hlist, if_neg (by simp only [dv]; omega)]
      rfl
    · have hB2 : inRange '1' '9' c2 = true :=
        inRange_eq_true _ _ _ (by rw [charVal1, charVal9]; omega)
      have hlist : monthCands (c1 :: c2 :: rs) = [(dv c2, rs)] := by
        simp [monthCands, hA1, hB1, hB2, hC]
      rw [hlist, findSome?_singleton, if_pos (by simp only [dv]; omega)]
      exact congrArg (fun v => k v rs) (by simp only [dv]; omega)
  · rcases Nat.lt_or_ge c1.toNat 50 with hb2 | hb2
    · -- first digit is 1
      have hA1 : inRange '1' '1' c1 = true :=
        inRange_eq_true _ _ _ (by rw [charVal1]; omega)
      have hB1 : inRange '0' '0' c1 = false :=
        inRange_eq_false _ _ _ (by rw [charVal0]; omega)
      have hC : inRange '1' '9' c1 = true :=
        inRange_eq_true _ _ _ (by rw [charVal1, charVal9]; omega)
      rcases Nat.lt_or_ge c2.toNat 51 with hc | hc
      · have hA2 : inRange '0' '2' c2 = true :=
          inRange_eq_true _ _ _ (by rw [charVal0, charVal2]; omega)
        have hlist : monthCands (c1 :: c2 :: rs) =
            [(10 + dv c2, rs), (dv c1, c2 :: rs)] := by
          simp [monthCands, hA1, hA2, hB1, hC]
        rw [hlist, findSome?_pair_none (fun p => k p.1 p.2) (10 + dv c2, rs)
          (dv c1, c2 :: rs) hkill, if_pos (by simp only [dv]; omega)]
        exact congrArg (fun v => k v rs) (by simp only [dv]; omega)
      · have hA2 : inRange '0' '2' c2 = false :=
          inRange_eq_false _ _ _ (by rw [charVal0, charVal2]; omega)
        have hlist : monthCands (c1 :: c2 :: rs) = [(dv c1, c2 :: rs)] := by
          simp [monthCands, hA1, hA2, hB1, hC]
        rw [hlist, findSome?_singleton, hkill,
          if_neg (by simp only [dv]; omega)]
    · -- first digit is 2..9
      have hA1 : inRange '1' '1' c1 = false :=
        inRange_eq_false _ _ _ (by rw [charVal1]; omega)
      have hB1 : inRange '0' '0' c1 = false :=
        inRange_eq_false _ _ _ (by rw [charVal0]; omega)
      have hC : inRange '1' '9' c1 = true :=
        inRange_eq_true _ _ _ (by rw [charVal1, charVal9]; omega)
      have hlist : monthCands (c1 :: c2 :: rs) = [(dv c1, c2 :: rs)] := by
        simp [monthCands, hA1, hB1, hC]
      rw [hlist, findSome?_singleton, hkill,
        if_neg (by simp only [dv]; omega)]

/-- Backtracking over the month candidates `1[0-2]|0[1-9]|[1-9]` equals the
committed two-digit read with the range check 1–12, provided the
continuation fails on any digit-headed remainder. -/
theorem monthCands_findSome {α : Type} (cs : List Char)
    (k : Nat → List Char → Option α)
    (hk : ∀ v c r, isDig c = true → k v (c :: r) = none) :
    List.findSome? (fun p => k p.1 p.2) (monthCands cs) =
      (match readNum2 cs with
       | some (v, r) => if 1 ≤ v ∧ v ≤ 12 then k v r else none
       | none => none) := by
  rcases cs with _ | ⟨c1, _ | ⟨c2, _ | ⟨c3, rest⟩⟩⟩
  · rfl
  · cases h1 : isDig c1
    · have hre : readNum2 [c1] = none := by simp [readNum2, h1]
      rw [hre, monthCands_nodig c1 [] h1]
      rfl
    · have hre : readNum2 [c1] = some (dv c1, []) := by simp [readNum2, h1]
      rw [monthCands_single c1 k h1, hre]
  · cases h1 : isDig c1
    · have hre : readNum2 [c1, c2] = none := by simp [readNum2, h1]
      rw [hre, monthCands_nodig c1 [c2] h1]
      rfl
    · cases h2 : isDig c2
      · have hre : readNum2 [c1, c2] = some (dv c1, [c2]) := by
          simp [readNum2, h1, h2]
        rw [monthCands_onedigit c1 c2 [] k h1 h2, hre]
      · have hre : readNum2 [c1, c2] = some (10 * dv c1 + dv c2, []) := by
          simp [readNum2, h1, h2]
        rw [monthCands_two c1 c2 [] k hk h1 h2, hre]
  · cases h1 : isDig c1
    · have hre : readNum2 (c1 :: c2 :: c3 :: rest) = none := by
        simp [readNum2, h1]
      rw [hre, monthCands_nodig c1 (c2 :: c3 :: rest) h1]
      rfl
    · cases h2 : isDig c2
      · have hre : readNum2 (c1 :: c2 :: c3 :: rest) =
            some (dv c1, c2 :: c3 :: rest) := by
          simp [readNum2, h1, h2]
        rw [monthCands_onedigit c1 c2 (c3 :: rest) k h1 h2, hre]
      · cases h3 : isDig c3
        · have hre : readNum2 (c1 :: c2 :: c3 :: rest) =
              some (10 * dv c1 + dv c2, c3 :: rest) := by
            simp [readNum2, h1, h2, h3]
          rw [monthCands_two c1 c2 (c3 :: rest) k hk h1 h2, hre]
        · have hre : readNum2 (c1 :: c2 :: c3 :: rest) = none := by
            simp [readNum2, h1, h2, h3]
          rw [monthCands_two c1 c2 (c3 :: rest) k hk h1 h2, hre,
            hk (10 * dv c1 + dv c2) c3 rest h3, ite_self]

/-- A non-digit head admits no day candidate. -/
theorem dayCands_nodig (c1 : Char) (rs : List Char) (h1 : isDig c1 = false) :
    dayCands (c1 :: rs) = [] := by
  have hn1 := isDig_false_nat h1
  have hA : inRange '3' '3' c1 = false :=
    inRange_eq_false _ _ _ (by rw [charVal3]; omega)
  have hB : inRange '1' '2' c1 = false :=
    inRange_eq_false _ _ _ (by rw [charVal1, charVal2]; omega)
  have hC : inRange '0' '0' c1 = false :=
    inRange_eq_false _ _ _ (by rw [charVal0]; omega)
  have hD : inRange '1' '9' c1 = false :=
    inRange_eq_false _ _ _ (by rw [charVal1, charVal9]; omega)
  rcases rs with _ | ⟨c2, r⟩ <;> simp [dayCands, hA, hB, hC, hD]

/-- Day candidates of a single digit. -/
theorem dayCands_single {α : Type} (c1 : Char) (k : Nat → List Char → Option α)
    (h1 : isDig c1 = true) :
    List.findSome? (fun p => k p.1 p.2) (dayCands [c1]) =
      (if 1 ≤ dv c1 ∧ dv c1 ≤ 31 then k (dv c1) [] else none) := by
  have hn1 := isDig_iff.mp h1
  rcases Nat.lt_or_ge c1.toNat 49 with hb | hb
  · have hD : inRange '1' '9' c1 = false :=
      inRange_eq_false _ _ _ (by rw [charVal1, charVal9]; omega)
    have hlist : dayCands [c1] = [] := by simp [dayCands, hD]
    rw [hlist, if_neg (by simp only [dv]; omega)]
    rfl
  · have hD : inRange '1' '9' c1 = true :=
      inRange_eq_true _ _ _ (by rw [charVal1, charVal9]; omega)
    have hlist : dayCands [c1] = [(dv c1, [])] := by simp [dayCands, hD]
    rw [hlist, findSome?_singleton, if_pos (by simp only [dv]; omega)]

/-- Day candidates of a digit followed by a non-digit. -/
theorem dayCands_onedigit {α : Type} (c1 c2 : Char) (rs : List Char)
    (k : Nat → List Char → Option α)
    (h1 : isDig c1 = true) (h2 : isDig c2 = false) :
    List.findSome? (fun p => k p.1 p.2) (dayCands (c1 :: c2 :: rs)) =
      (if 1 ≤ dv c1 ∧ dv c1 ≤ 31 then k (dv c1) (c2 :: rs) else none) := by
  have hn1 := isDig_iff.mp h1
  have hn2 := isDig_false_nat h2
  have hA2 : inRange '0' '1' c2 = false :=
    inRange_eq_false _ _ _ (by rw [charVal0, charVal1]; omega)
  have hB2 : inRange '1' '9' c2 = false :=
    inRange_eq_false _ _ _ (by rw [charVal1, charVal9]; omega)
  rcases Nat.lt_or_ge c1.toNat 49 with hb | hb
  · have hD : inRange '1' '9' c1 = false :=
      inRange_eq_false _ _ _ (by rw [charVal1, charVal9]; omega)
    have hlist : dayCands (c1 :: c2 :: rs) = [] := by
      simp [dayCands, hA2, hB2, hD, h2]
    rw [hlist, if_neg (by simp only [dv]; omega)]
    rfl
  · have hD : inRange '1' '9' c1 = true :=
      inRange_eq_true _ _ _ (by rw [charVal1, charVal9]; omega)
    have hlist : dayCands (c1 :: c2 :: rs) = [(dv c1, c2 :: rs)] := by
      simp [dayCands, hA2, hB2, hD, h2]
    rw [hlist, findSome?_singleton, if_pos (by simp only [dv]; omega)]

/-- Day candidates of two digits: the backtracking search equals the
committed two-digit value with the 1–31 range check, provided the
continuation fails on any digit-headed remainder. -/
theorem dayCands_two {α : Type} (c1 c2 : Char) (rs : List Char)
    (k : Nat → List Char → Option α)
    (hk : ∀ v c r, isDig c = true → k v (c :: r) = none)
    (h1 : isDig c1 = true) (h2 : isDig c2 = true) :
    List.findSome? (fun p => k p.1 p.2) (dayCands (c1 :: c2 :: rs)) =
      (if 1 ≤ 10 * dv c1 + dv c2 ∧ 10 * dv c1 + dv c2 ≤ 31 then
        k (10 * dv c1 + dv c2) rs else none) := by
  have hn1 := isDig_iff.mp h1
  have hn2 := isDig_iff.mp h2
  have hkill : k (dv c1) (c2 :: rs) = none := hk (dv c1) c2 rs h2
  rcases Nat.lt_or_ge c1.toNat 49 with hb | hb
  · -- first digit is 0
    have hA1 : inRange '3' '3' c1 = false :=
      inRange_eq_false _ _ _ (by rw [charVal3]; omega)
    have hB1 : inRange '1' '2' c1 = false :=
      inRange_eq_false _ _ _ (by rw [charVal1, charVal2]; omega)
    have hC1 : inRange '0' '0' c1 = true :=
      inRange_eq_true _ _ _ (by rw [charVal0]; omega)
    have hD1 : inRange '1' '9' c1 = false :=
      inRange_eq_false _ _ _ (by rw [charVal1, charVal9]; omega)
    rcases Nat.lt_or_ge c2.toNat 49 with hc | hc
    · have hC2 : inRange '1' '9' c2 = false :=
        inRange_eq_false _ _ _ (by rw [charVal1, charVal9]; omega)
      have hlist : dayCands (c1 :: c2 :: rs) = [] := by
        simp [dayCands, hA1, hB1, hC1, hC2, hD1]
      rw [hlist, if_neg (by simp only [dv]; omega)]
      rfl
    · have hC2 : inRange '1' '9' c2 = true :=
        inRange_eq_true _ _ _ (by rw [charVal1, charVal9]; omega)
      have hlist : dayCands (c1 :: c2 :: rs) = [(dv c2, rs)] := by
        simp [dayCands, hA1, hB1, hC1, hC2, hD1]
      rw [hlist, findSome?_singleton, if_pos (by simp only [dv]; omega)]
      exact congrArg (fun v => k v rs) (by simp only [dv]; omega)
  · rcases Nat.lt_or_ge c1.toNat 51 with hb2 | hb2
    · -- first digit is 1 or 2
      have hA1 : inRange '3' '3' c1 = false :=
        inRange_eq_false _ _ _ (by rw [charVal3]; omega)
      have hB1 : inRange '1' '2' c1 = true :=
        inRange_eq_true _ _ _ (by rw [charVal1, charVal2]; omega)
      have hC1 : inRange '0' '0' c1 = false :=
        inRange_eq_false _ _ _ (by rw [charVal0]; omega)
      have hD1 : inRange '1' '9' c1 = true :=
        inRange_eq_true _ _ _ (by rw [charVal1, charVal9]; omega)
      have hlist : dayCands (c1 :: c2 :: rs) =
          [(10 * dv c1 + dv c2, rs), (dv c1, c2 :: rs)] := by
        simp [dayCands, hA1, hB1, hC1, hD1, h2]
      rw [hlist, findSome?_pair_none (fun p => k p.1 p.2)
        (10 * dv c1 + dv c2, rs) (dv c1, c2 :: rs) hkill,
        if_pos (by simp only [dv]; omega)]
    · rcases Nat.lt_or_ge c1.toNat 52 with hb3 | hb3
      · -- first digit is 3
        have hA1 : inRange '3' '3' c1 = true :=
          inRange_eq_true _ _ _ (by rw [charVal3]; omega)
        have hB1 : inRange '1' '2' c1 = false :=
          inRange_eq_false _ _ _ (by rw [charVal1, charVal2]; omega)
        have hC1 : inRange '0' '0' c1 = false :=
          inRange_eq_false _ _ _ (by rw [charVal0]; omega)
        have hD1 : inRange '1' '9' c1 = true :=
          inRange_eq_true _ _ _ (by rw [charVal1, charVal9]; omega)
        rcases Nat.lt_or_ge c2.toNat 50 with hc | hc
        · have hA2 : inRange '0' '1' c2 = true :=
            inRange_eq_true _ _ _ (by rw [charVal0, charVal1]; omega)
          have hlist : dayCands (c1 :: c2 :: rs) =
              [(30 + dv c2, rs), (dv c1, c2 :: rs)] := by
            simp [dayCands, hA1, hA2, hB1, hC1, hD1]
          rw [hlist, findSome?_pair_none (fun p => k p.1 p.2)
            (30 + dv c2, rs) (dv c1, c2 :: rs) hkill,
            if_pos (by simp only [dv]; omega)]
          exact congrArg (fun v => k v rs) (by simp only [dv]; omega)
        · have hA2 : inRange '0' '1' c2 = false :=
            inRange_eq_false _ _ _ (by rw [charVal0, charVal1]; omega)
          have hlist : dayCands (c1 :: c2 :: rs) = [(dv c1, c2 :: rs)] := by
            simp [dayCands, hA1, hA2, hB1, hC1, hD1]
          rw [hlist, findSome?_singleton, hkill,
            if_neg (by simp only [dv]; omega)]
      · -- first digit is 4..9
        have hA1 : inRange '3' '3' c1 = false :=
          inRange_eq_false _ _ _ (by rw [charVal3]; omega)
        have hB1 : inRange '1' '2' c1 = false :=
          inRange_eq_false _ _ _ (by rw [charVal1, charVal2]; omega)
        have hC1 : inRange '0' '0' c1 = false :=
          inRange_eq_false _ _ _ (by rw [charVal0]; omega)
        have hD1 : inRange '1' '9' c1 = true :=
          inRange_eq_true _ _ _ (by rw [charVal1, charVal9]; omega)
        have hlist : dayCands (c1 :: c2 :: rs) = [(dv c1, c2 :: rs)] := by
          simp [dayCands, hA1, hB1, hC1, hD1]
        rw [hlist, findSome?_singleton, hkill,
          if_neg (by simp only [dv]; omega)]

/-- Backtracking over the day candidates `3[01]|[12]\d|0[1-9]|[1-9]` equals
the committed two-digit read with the range check 1–31, provided the
continuation fails on any digit-headed remainder. -/
theorem dayCands_findSome {α : Type} (cs : List Char)
    (k : Nat → List Char → Option α)
    (hk : ∀ v c r, isDig c = true → k v (c :: r) = none) :
    List.findSome? (fun p => k p.1 p.2) (dayCands cs) =
      (match readNum2 cs with
       | some (v, r) => if 1 ≤ v ∧ v ≤ 31 then k v r else none
       | none => none) := by
  rcases cs with _ | ⟨c1, _ | ⟨c2, _ | ⟨c3, rest⟩⟩⟩
  · rfl
  · cases h1 : isDig c1
    · have hre : readNum2 [c1] = none := by simp [readNum2, h1]
      rw [hre, dayCands_nodig c1 [] h1]
      rfl
    · have hre : readNum2 [c1] = some (dv c1, []) := by simp [readNum2, h1]
      rw [dayCands_single c1 k h1, hre]
  · cases h1 : isDig c1
    · have hre : readNum2 [c1, c2] = none := by simp [readNum2, h1]
      rw [hre, dayCands_nodig c1 [c2] h1]
      rfl
    · cases h2 : isDig c2
      · have hre : readNum2 [c1, c2] = some (dv c1, [c2]) := by
          simp [readNum2, h1, h2]
        rw [dayCands_onedigit c1 c2 [] k h1 h2, hre]
      · have hre : readNum2 [c1, c2] = some (10 * dv c1 + dv c2, []) := by
          simp [readNum2, h1, h2]
        rw [dayCands_two c1 c2 [] k hk h1 h2, hre]
  · cases h1 : isDig c1
    · have hre : readNum2 (c1 :: c2 :: c3 :: rest) = none := by
        simp [readNum2, h1]
      rw [hre, dayCands_nodig c1 (c2 :: c3 :: rest) h1]
      rfl
    · cases h2 : isDig c2
      · have hre : readNum2 (c1 :: c2 :: c3 :: rest) =
            some (dv c1, c2 :: c3 :: rest) := by
          simp [readNum2, h1, h2]
        rw [dayCands_onedigit c1 c2 (c3 :: rest) k h1 h2, hre]
      · cases h3 : isDig c3
        · have hre : readNum2 (c1 :: c2 :: c3 :: rest) =
              some (10 * dv c1 + dv c2, c3 :: rest) := by
            simp [readNum2, h1, h2, h3]
          rw [dayCands_two c1 c2 (c3 :: rest) k hk h1 h2, hre]
        · have hre : readNum2 (c1 :: c2 :: c3 :: rest) = none := by
            simp [readNum2, h1, h2, h3]
          rw [dayCands_two c1 c2 (c3 :: rest) k hk h1 h2, hre,
            hk (10 * dv c1 + dv c2) c3 rest h3, ite_self]

/-- A non-digit head admits no hour candidate. -/
theorem hourCands_nodig (c1 : Char) (rs : List Char) (h1 : isDig c1 = false) :
    hourCands (c1 :: rs) = [] := by
  have hn1 := isDig_false_nat h1
  have hA : inRange '2' '2' c1 = false :=
    inRange_eq_false _ _ _ (by rw [charVal2]; omega)
  have hB : inRange '0' '1' c1 = false :=
    inRange_eq_false _ _ _ (by rw [charVal0, charVal1]; omega)
  rcases rs with _ | ⟨c2, r⟩ <;> simp [hourCands, hA, hB, h1]

/-- Hour candidates of a single digit. -/
theorem hourCands_single {α : Type} (c1 : Char) (k : Nat → List Char → Option α)
    (h1 : isDig c1 = true) :
    List.findSome? (fun p => k p.1 p.2) (hourCands [c1]) =
      (if dv c1 ≤ 23 then k (dv c1) [] else none) := by
  have hn1 := isDig_iff.mp h1
  have hlist : hourCands [c1] = [(dv c1, [])] := by simp [hourCands, h1]
  rw [hlist, findSome?_singleton, if_pos (by simp only [dv]; omega)]

/-- Hour candidates of a digit followed by a non-digit. -/
theorem hourCands_onedigit {α : Type} (c1 c2 : Char) (rs : List Char)
    (k : Nat → List Char → Option α)
    (h1 : isDig c1 = true) (h2 : isDig c2 = false) :
    List.findSome? (fun p => k p.1 p.2) (hourCands (c1 :: c2 :: rs)) =
      (if dv c1 ≤ 23 then k (dv c1) (c2 :: rs) else none) := by
  have hn1 := isDig_iff.mp h1
  have hn2 := isDig_false_nat h2
  have hA2 : inRange '0' '3' c2 = false :=
    inRange_eq_false _ _ _ (by rw [charVal0, charVal3]; omega)
  have hlist : hourCands (c1 :: c2 :: rs) = [(dv c1, c2 :: rs)] := by
    simp [hourCands, hA2, h1, h2]
  rw [hlist, findSome?_singleton, if_pos (by simp only [dv]; omega)]

/-- Hour candidates of two digits: the backtracking search equals the
committed two-digit value with the 0–23 range check, provided the
continuation fails on any digit-headed remainder. -/
theorem hourCands_two {α : Type} (c1 c2 : Char) (rs : List Char)
    (k : Nat → List Char → Option α)
    (hk : ∀ v c r, isDig c = true → k v (c :: r) = none)
    (h1 : isDig c1 = true) (h2 : isDig c2 = true) :
    List.findSome? (fun p => k p.1 p.2) (hourCands (c1 :: c2 :: rs)) =
      (if 10 * dv c1 + dv c2 ≤ 23 then k (10 * dv c1 + dv c2) rs else none) := by
  have hn1 := isDig_iff.mp h1
  have hn2 := isDig_iff.mp h2
  have hkill : k (dv c1) (c2 :: rs) = none := hk (dv c1) c2 rs h2
  rcases Nat.lt_or_ge c1.toNat 50 with hb | hb
  · -- first digit is 0 or 1
    have hA1 : inRange '2' '2' c1 = false :=
      inRange_eq_false _ _ _ (by rw [charVal2]; omega)
    have hB1 : inRange '0' '1' c1 = true :=
      inRange_eq_true _ _ _ (by rw [charVal0, charVal1]; omega)
    have hlist : hourCands (c1 :: c2 :: rs) =
        [(10 * dv c1 + dv c2, rs), (dv c1, c2 :: rs)] := by
      simp [hourCands, hA1, hB1, h1, h2]
    rw [hlist, findSome?_pair_none (fun p => k p.1 p.2)
      (10 * dv c1 + dv c2, rs) (dv c1, c2 :: rs) hkill,
      if_pos (by simp only [dv]; omega)]
  · rcases Nat.lt_or_ge c1.toNat 51 with hb2 | hb2
    · -- first digit is 2
      have hA1 : inRange '2' '2' c1 = true :=
        inRange_eq_true _ _ _ (by rw [charVal2]; omega)
      have hB1 : inRange '0' '1' c1 = false :=
        inRange_eq_false _ _ _ (by rw [charVal0, charVal1]; omega)
      rcases Nat.lt_or_ge c2.toNat 52 with hc | hc
      · have hA2 : inRange '0' '3' c2 = true :=
          inRange_eq_true _ _ _ (by rw [charVal0, charVal3]; omega)
        have hlist : hourCands (c1 :: c2 :: rs) =
            [(20 + dv c2, rs), (dv c1, c2 :: rs)] := by
          simp [hourCands, hA1, hA2, hB1, h1]
        rw [hlist, findSome?_pair_none (fun p => k p.1 p.2)
          (20 + dv c2, rs) (dv c1, c2 :: rs) hkill,
          if_pos (by simp only [dv]; omega)]
        exact congrArg (fun v => k v rs) (by simp only [dv]; omega)
      · have hA2 : inRange '0' '3' c2 = false :=
          inRange_eq_false _ _ _ (by rw [charVal0, charVal3]; omega)
        have hlist : hourCands (c1 :: c2 :: rs) = [(dv c1, c2 :: rs)] := by
          simp [hourCands, hA1, hA2, hB1, h1]
        rw [hlist, findSome?_singleton, hkill,
          if_neg (by simp only [dv]; omega)]
    · -- first digit is 3..9
      have hA1 : inRange '2' '2' c1 = false :=
        inRange_eq_false _ _ _ (by rw [charVal2]; omega)
      have hB1 : inRange '0' '1' c1 = false :=
        inRange_eq_false _ _ _ (by rw [charVal0, charVal1]; omega)
      have hlist : hourCands (c1 :: c2 :: rs) = [(dv c1, c2 :: rs)] := by
        simp [hourCands, hA1, hB1, h1]
      rw [hlist, findSome?_singleton, hkill,
        if_neg (by simp only [dv]; omega)]

/-- Backtracking over the hour candidates `2[0-3]|[0-1]\d|\d` equals the
committed two-digit read with the range check 0–23, provided the
continuation fails on any digit-headed remainder. -/
theorem hourCands_findSome {α : Type} (cs : List Char)
    (k : Nat → List Char → Option α)
    (hk : ∀ v c r, isDig c = true → k v (c :: r) = none) :
    List.findSome? (fun p => k p.1 p.2) (hourCands cs) =
      (match readNum2 cs with
       | some (v, r) => if v ≤ 23 then k v r else none
       | none => none) := by
  rcases cs with _ | ⟨c1, _ | ⟨c2, _ | ⟨c3, rest⟩⟩⟩
  · rfl
  · cases h1 : isDig c1
    · have hre : readNum2 [c1] = none := by simp [readNum2, h1]
      rw [hre, hourCands_nodig c1 [] h1]
      rfl
    · have hre : readNum2 [c1] = some (dv c1, []) := by simp [readNum2, h1]
      rw [hourCands_single c1 k h1, hre]
  · cases h1 : isDig c1
    · have hre : readNum2 [c1, c2] = none := by simp [readNum2, h1]
      rw [hre, hourCands_nodig c1 [c2] h1]
      rfl
    · cases h2 : isDig c2
      · have hre : readNum2 [c1, c2] = some (dv c1, [c2]) := by
          simp [readNum2, h1, h2]
        rw [hourCands_onedigit c1 c2 [] k h1 h2, hre]
      · have hre : readNum2 [c1, c2] = some (10 * dv c1 + dv c2, []) := by
          simp [readNum2, h1, h2]
        rw [hourCands_two c1 c2 [] k hk h1 h2, hre]
  · cases h1 : isDig c1
    · have hre : readNum2 (c1 :: c2 :: c3 :: rest) = none := by
        simp [readNum2, h1]
      rw [hre, hourCands_nodig c1 (c2 :: c3 :: rest) h1]
      rfl
    · cases h2 : isDig c2
      · have hre : readNum2 (c1 :: c2 :: c3 :: rest) =
            some (dv c1, c2 :: c3 :: rest) := by
          simp [readNum2, h1, h2]
        rw [hourCands_onedigit c1 c2 (c3 :: rest) k h1 h2, hre]
      · cases h3 : isDig c3
        · have hre : readNum2 (c1 :: c2 :: c3 :: rest) =
              some (10 * dv c1 + dv c2, c3 :: rest) := by
            simp [readNum2, h1, h2, h3]
          rw [hourCands_two c1 c2 (c3 :: rest) k hk h1 h2, hre]
        · have hre : readNum2 (c1 :: c2 :: c3 :: rest) = none := by
            simp [readNum2, h1, h2, h3]
          rw [hourCands_two c1 c2 (c3 :: rest) k hk h1 h2, hre,
            hk (10 * dv c1 + dv c2) c3 rest h3, ite_self]

/-- The `datetime` constructor checks reduce to the remaining conditions
once the month, day and hour ranges and the year bound are known. -/
theorem datetimeCtorOk_reduce (y mo d h : Nat) (hy : y ≤ 9999)
    (hmo : 1 ≤ mo ∧ mo ≤ 12) (hd : 1 ≤ d ∧ d ≤ 31) (hh : h ≤ 23) (mi : Nat) :
    datetimeCtorOk ⟨y, mo, d, h, mi⟩ =
      decide (1 ≤ y ∧ mi ≤ 59 ∧ d ≤ daysInMonth y mo) := by
  unfold datetimeCtorOk
  rw [decide_eq_decide]
  constructor
  · rintro ⟨a, -, -, -, -, f, -, i⟩
    exact ⟨a, i, f⟩
  · rintro ⟨a, b, c⟩
    exact ⟨a, hy, hmo.1, hmo.2, hd.1, c, hh, b⟩

/-- The minute component followed by the end-of-input and constructor
checks equals the specification-side last step. -/
theorem minute_level (y mo d h : Nat) (r4 : List Char) (hy : y ≤ 9999)
    (hmo : 1 ≤ mo ∧ mo ≤ 12) (hd : 1 ≤ d ∧ d ≤ 31) (hh : h ≤ 23) :
    postCheck (List.findSome? (fun p => minuteCont y mo d h p.1 p.2)
      (minuteCands r4)) = specFromMinute y mo d h r4 := by
  have hctor := datetimeCtorOk_reduce y mo d h hy hmo hd hh
  rcases r4 with _ | ⟨c1, _ | ⟨c2, _ | ⟨c3, rest⟩⟩⟩
  · rfl
  · cases h1 : isDig c1
    · have hlist : minuteCands [c1] = [] := by simp [minuteCands, h1]
      have hre : readNum2 [c1] = none := by simp [readNum2, h1]
      rw [hlist]
      unfold specFromMinute
      rw [hre]
      rfl
    · have hlist : minuteCands [c1] = [(dv c1, [])] := by
        simp [minuteCands, h1]
      have hre : readNum2 [c1] = some (dv c1, []) := by simp [readNum2, h1]
      rw [hlist, findSome?_singleton]
      unfold specFromMinute
      rw [hre]
      show postCheck (minuteCont y mo d h (dv c1) []) =
        (([] : List Char).isEmpty && decide (1 ≤ y ∧ dv c1 ≤ 59 ∧
          d ≤ daysInMonth y mo))
      simp [postCheck, minuteCont, hctor]
  · cases h1 : isDig c1
    · have h05 : inRange '0' '5' c1 = false :=
        inRange_eq_false _ _ _ (fun hx => isDig_false_nat h1 (by
          rw [charVal0, charVal5] at hx
          omega))
      have hlist : minuteCands [c1, c2] = [] := by
        simp [minuteCands, h05, h1]
      have hre : readNum2 [c1, c2] = none := by simp [readNum2, h1]
      rw [hlist]
      unfold specFromMinute
      rw [hre]
      rfl
    · cases h2 : isDig c2
      · have hn2 := isDig_false_nat h2
        have hlist : minuteCands [c1, c2] = [(dv c1, [c2])] := by
          simp [minuteCands, h1, h2]
        have hre : readNum2 [c1, c2] = some (dv c1, [c2]) := by
          simp [readNum2, h1, h2]
        rw [hlist, findSome?_singleton]
        unfold specFromMinute
        rw [hre]
        show postCheck (minuteCont y mo d h (dv c1) [c2]) =
          (([c2] : List Char).isEmpty && decide (1 ≤ y ∧ dv c1 ≤ 59 ∧
            d ≤ daysInMonth y mo))
        simp [postCheck, minuteCont]
      · have hn1 := isDig_iff.mp h1
        have hn2 := isDig_iff.mp h2
        have hre : readNum2 [c1, c2] = some (10 * dv c1 + dv c2, []) := by
          simp [readNum2, h1, h2]
        rcases Nat.lt_or_ge c1.toNat 54 with hb | hb
        · have hA1 : inRange '0' '5' c1 = true :=
            inRange_eq_true _ _ _ (by rw [charVal0, charVal5]; omega)
          have hlist : minuteCands [c1, c2] =
              [(10 * dv c1 + dv c2, []), (dv c1, [c2])] := by
            simp [minuteCands, hA1, h1, h2]
          rw [hlist]
          unfold specFromMinute
          rw [hre]
          show postCheck (match minuteCont y mo d h (10 * dv c1 + dv c2) []
              with
            | some b => some b
            | none => List.findSome?
                (fun p => minuteCont y mo d h p.1 p.2) [(dv c1, [c2])]) =
            (([] : List Char).isEmpty && decide (1 ≤ y ∧
              10 * dv c1 + dv c2 ≤ 59 ∧ d ≤ daysInMonth y mo))
          simp [postCheck, minuteCont, hctor]
        · have hA1 : inRange '0' '5' c1 = false :=
            inRange_eq_false _ _ _ (by rw [charVal0, charVal5]; omega)
          have hlist : minuteCands [c1, c2] = [(dv c1, [c2])] := by
            simp [minuteCands, hA1, h1]
          have hv : ¬(1 ≤ y ∧ 10 * dv c1 + dv c2 ≤ 59 ∧
              d ≤ daysInMonth y mo) := by
            have : 60 ≤ 10 * dv c1 + dv c2 := by simp only [dv]; omega
            omega
          rw [hlist, findSome?_singleton]
          unfold specFromMinute
          rw [hre]
          show postCheck (minuteCont y mo d h (dv c1) [c2]) =
            (([] : List Char).isEmpty && decide (1 ≤ y ∧
              10 * dv c1 + dv c2 ≤ 59 ∧ d ≤ daysInMonth y mo))
          simp [postCheck, minuteCont, hv]
  · cases h1 : isDig c1
    · have h05 : inRange '0' '5' c1 = false :=
        inRange_eq_false _ _ _ (fun hx => isDig_false_nat h1 (by
          rw [charVal0, charVal5] at hx
          omega))
      have hlist : minuteCands (c1 :: c2 :: c3 :: rest) = [] := by
        simp [minuteCands, h05, h1]
      have hre : readNum2 (c1 :: c2 :: c3 :: rest) = none := by
        simp [readNum2, h1]
      rw [hlist]
      unfold specFromMinute
      rw [hre]
      rfl
    · cases h2 : isDig c2
      · have hlist : minuteCands (c1 :: c2 :: c3 :: rest) =
            [(dv c1, c2 :: c3 :: rest)] := by
          simp [minuteCands, h1, h2]
        have hre : readNum2 (c1 :: c2 :: c3 :: rest) =
            some (dv c1, c2 :: c3 :: rest) := by
          simp [readNum2, h1, h2]
        rw [hlist, findSome?_singleton]
        unfold specFromMinute
        rw [hre]
        show postCheck (minuteCont y mo d h (dv c1) (c2 :: c3 :: rest)) =
          ((c2 :: c3 :: rest).isEmpty && decide (1 ≤ y ∧ dv c1 ≤ 59 ∧
            d ≤ daysInMonth y mo))
        simp [postCheck, minuteCont]
      · have hn1 := isDig_iff.mp h1
        rcases Nat.lt_or_ge c1.toNat 54 with hb | hb
        · have hA1 : inRange '0' '5' c1 = true :=
            inRange_eq_true _ _ _ (by rw [charVal0, charVal5]; omega)
          have hlist : minuteCands (c1 :: c2 :: c3 :: rest) =
              [(10 * dv c1 + dv c2, c3 :: rest), (dv c1, c2 :: c3 :: rest)] := by
            simp [minuteCands, hA1, h1, h2]
          rw [hlist]
          cases h3 : isDig c3
          · have hre : readNum2 (c1 :: c2 :: c3 :: rest) =
                some (10 * dv c1 + dv c2, c3 :: rest) := by
              simp [readNum2, h1, h2, h3]
            unfold specFromMinute
            rw [hre]
            show postCheck (match minuteCont y mo d h (10 * dv c1 + dv c2)
                (c3 :: rest) with
              | some b => some b
              | none => List.findSome? (fun p => minuteCont y mo d h p.1 p.2)
                  [(dv c1, c2 :: c3 :: rest)]) =
              ((c3 :: rest).isEmpty && decide (1 ≤ y ∧
                10 * dv c1 + dv c2 ≤ 59 ∧ d ≤ daysInMonth y mo))
            simp [postCheck, minuteCont]
          · have hre : readNum2 (c1 :: c2 :: c3 :: rest) = none := by
              simp [readNum2, h1, h2, h3]
            unfold specFromMinute
            rw [hre]
            show postCheck (match minuteCont y mo d h (10 * dv c1 + dv c2)
                (c3 :: rest) with
              | some b => some b
              | none => List.findSome? (fun p => minuteCont y mo d h p.1 p.2)
                  [(dv c1, c2 :: c3 :: rest)]) = false
            simp [postCheck, minuteCont]
        · have hA1 : inRange '0' '5' c1 = false :=
            inRange_eq_false _ _ _ (by rw [charVal0, charVal5]; omega)
          have hlist : minuteCands (c1 :: c2 :: c3 :: rest) =
              [(dv c1, c2 :: c3 :: rest)] := by
            simp [minuteCands, hA1, h1]
          rw [hlist, findSome?_singleton]
          cases h3 : isDig c3
          · have hre : readNum2 (c1 :: c2 :: c3 :: rest) =
                some (10 * dv c1 + dv c2, c3 :: rest) := by
              simp [readNum2, h1, h2, h3]
            unfold specFromMinute
            rw [hre]
            show postCheck (minuteCont y mo d h (dv c1) (c2 :: c3 :: rest)) =
              ((c3 :: rest).isEmpty && decide (1 ≤ y ∧
                10 * dv c1 + dv c2 ≤ 59 ∧ d ≤ daysInMonth y mo))
            simp [postCheck, minuteCont]
          · have hre : readNum2 (c1 :: c2 :: c3 :: rest) = none := by
              simp [readNum2, h1, h2, h3]
            unfold specFromMinute
            rw [hre]
            show postCheck (minuteCont y mo d h (dv c1) (c2 :: c3 :: rest)) =
              false
            simp [postCheck, minuteCont]

/-- After the hour: the colon and the minute agree with the specification
side. -/
theorem after_hour_level (y mo d h : Nat) (r3 : List Char) (hy : y ≤ 9999)
    (hmo : 1 ≤ mo ∧ mo ≤ 12) (hd : 1 ≤ d ∧ d ≤ 31) (hh : h ≤ 23) :
    postCheck (hourCont y mo d h r3) = specAfterHour y mo d h r3 := by
  rcases r3 with _ | ⟨c4, r4⟩
  · rfl
  · show postCheck (if c4 = ':' then
        List.findSome? (fun p => minuteCont y mo d h p.1 p.2) (minuteCands r4)
      else none) =
      (if c4 = ':' then specFromMinute y mo d h r4 else false)
    by_cases hc : c4 = ':'
    · rw [if_pos hc, if_pos hc]
      exact minute_level y mo d h r4 hy hmo hd hh
    · rw [if_neg hc, if_neg hc]
      rfl

/-- The hour component agrees with the specification side. -/
theorem hour_level (y mo d : Nat) (cs : List Char) (hy : y ≤ 9999)
    (hmo : 1 ≤ mo ∧ mo ≤ 12) (hd : 1 ≤ d ∧ d ≤ 31) :
    postCheck (List.findSome? (fun p => hourCont y mo d p.1 p.2)
      (hourCands cs)) = specFromHour y mo d cs := by
  have hkH : ∀ v c r, isDig c = true → hourCont y mo d v (c :: r) = none := by
    intro v c r hc
    simp [hourCont, isDig_ne_colon hc]
  rw [hourCands_findSome cs (hourCont y mo d) hkH]
  unfold specFromHour
  cases hre : readNum2 cs with
  | none => rfl
  | some pr =>
    obtain ⟨h, r3⟩ := pr
    show postCheck (if h ≤ 23 then hourCont y mo d h r3 else none) =
      (if h ≤ 23 then specAfterHour y mo d h r3 else false)
    by_cases hh : h ≤ 23
    · rw [if_pos hh, if_pos hh]
      exact after_hour_level y mo d h r3 hy hmo hd hh
    · rw [if_neg hh, if_neg hh]
      rfl

/-- The whitespace separator agrees with the specification side. -/
theorem ws_level (y mo d : Nat) (rr : List Char) (hy : y ≤ 9999)
    (hmo : 1 ≤ mo ∧ mo ≤ 12) (hd : 1 ≤ d ∧ d ≤ 31) :
    postCheck (wsCont y mo d rr) = specFromWs y mo d rr := by
  unfold wsCont specFromWs
  by_cases hw : (rr.takeWhile pyIsSpace).isEmpty = true
  · rw [if_pos hw, if_pos hw]
    rfl
  · rw [if_neg hw, if_neg hw]
    exact hour_level y mo d _ hy hmo hd

/-- The day component agrees with the specification side. -/
theorem day_level (y mo : Nat) (r2 : List Char) (hy : y ≤ 9999)
    (hmo : 1 ≤ mo ∧ mo ≤ 12) :
    postCheck (List.findSome? (fun p => wsCont y mo p.1 p.2) (dayCands r2)) =
      specFromDay y mo r2 := by
  have hkD : ∀ v c r, isDig c = true → wsCont y mo v (c :: r) = none := by
    intro v c r hc
    simp [wsCont, List.takeWhile_cons, isDig_not_space hc]
  rw [dayCands_findSome r2 (wsCont y mo) hkD]
  unfold specFromDay
  cases hre : readNum2 r2 with
  | none => rfl
  | some pr =>
    obtain ⟨d, rr⟩ := pr
    show postCheck (if 1 ≤ d ∧ d ≤ 31 then wsCont y mo d rr else none) =
      (if 1 ≤ d ∧ d ≤ 31 then specFromWs y mo d rr else false)
    by_cases hd : 1 ≤ d ∧ d ≤ 31
    · rw [if_pos hd, if_pos hd]
      exact ws_level y mo d rr hy hmo hd
    · rw [if_neg hd, if_neg hd]
      rfl

/-- After the month: the dash and the day agree with the specification
side. -/
theorem after_month_level (y mo : Nat) (r : List Char) (hy : y ≤ 9999)
    (hmo : 1 ≤ mo ∧ mo ≤ 12) :
    postCheck (monthCont y mo r) = specAfterMonth y mo r := by
  rcases r with _ | ⟨c, r2⟩
  · rfl
  · show postCheck (if c = '-' then
        List.findSome? (fun p => wsCont y mo p.1 p.2) (dayCands r2)
      else none) =
      (if c = '-' then specFromDay y mo r2 else false)
    by_cases hc : c = '-'
    · rw [if_pos hc, if_pos hc]
      exact day_level y mo r2 hy hmo
    · rw [if_neg hc, if_neg hc]
      rfl

/-- The month component agrees with the specification side. -/
theorem month_level (y : Nat) (r1 : List Char) (hy : y ≤ 9999) :
    postCheck (List.findSome? (fun p => monthCont y p.1 p.2) (monthCands r1)) =
      specFromMonth y r1 := by
  have hkM : ∀ v c r, isDig c = true → monthCont y v (c :: r) = none := by
    intro v c r hc
    simp [monthCont, isDig_ne_dash hc]
  rw [monthCands_findSome r1 (monthCont y) hkM]
  unfold specFromMonth
  cases hre : readNum2 r1 with
  | none => rfl
  | some pr =>
    obtain ⟨mo, r⟩ := pr
    show postCheck (if 1 ≤ mo ∧ mo ≤ 12 then monthCont y mo r else none) =
      (if 1 ≤ mo ∧ mo ≤ 12 then specAfterMonth y mo r else false)
    by_cases hmo : 1 ≤ mo ∧ mo ≤ 12
    · rw [if_pos hmo, if_pos hmo]
      exact after_month_level y mo r hy hmo
    · rw [if_neg hmo, if_neg hmo]
      rfl

/-- The full `strptime` match-and-check agrees with the specification-side
flexible pattern on every character list. -/
theorem matchYmdHM_eq_spec (cs : List Char) :
    postCheck (matchYmdHM cs) = specFlexCore cs := by
  rcases cs with _ | ⟨y1, _ | ⟨y2, _ | ⟨y3, _ | ⟨y4, _ | ⟨c5, r1⟩⟩⟩⟩⟩
  · rfl
  · rfl
  · rfl
  · rfl
  · rfl
  · show postCheck (if (isDig y1 && isDig y2 && isDig y3 && isDig y4 &&
          decide (c5 = '-')) = true then
        List.findSome?
          (fun p =>
            monthCont (1000 * dv y1 + 100 * dv y2 + 10 * dv y3 + dv y4)
              p.1 p.2)
          (monthCands r1)
      else none) =
      (if (isDig y1 && isDig y2 && isDig y3 && isDig y4 &&
          decide (c5 = '-')) = true then
        specFromMonth (1000 * dv y1 + 100 * dv y2 + 10 * dv y3 + dv y4) r1
      else false)
    by_cases hcond :
        (isDig y1 && isDig y2 && isDig y3 && isDig y4 && decide (c5 = '-')) =
          true
    · rw [if_pos hcond, if_pos hcond]
      have hds := hcond
      simp only [Bool.and_eq_true] at hds
      have e1 := dv_le9 hds.1.1.1.1
      have e2 := dv_le9 hds.1.1.1.2
      have e3 := dv_le9 hds.1.1.2
      have e4 := dv_le9 hds.1.2
      exact month_level _ r1 (by omega)
    · rw [if_neg hcond, if_neg hcond]
      rfl

/-- C3 amended: `validate_datetime` accepts exactly the strings of the
flexible pattern `YYYY-MM-DD HH:MM` in which month, day, hour and minute
may each be written with one or two digits, the separating space may be any
nonempty whitespace run, nothing else precedes or follows, and the values
are calendar-valid with the year at least 0001. -/
theorem c3_datetime_flexible (s : String) :
    validate_datetime s = specDateTimeFlex s := by
  rw [validate_datetime_eq_postCheck, matchYmdHM_eq_spec]
  rfl
